import Mathlib

/-!
R-MAT edge generator (`include/rmat_edge_generator.hpp`)

A shallow embedding of `rmat_edge_generator` and of its nested
`input_iterator_type`, followed by the properties established about them.

* `double` values are elements of a type `α` carrying the operations the code
  uses (`<`, `>=`, `+`, `-`, `*`, `/`, the literals `0.9`, `0.2`, `1.`).  The
  structural results hold for every such `α`; the arithmetic results are stated
  for a linearly ordered field (exact arithmetic).
* `uint64_t` values are natural numbers, reduced modulo `2 ^ 64` wherever the
  code does arithmetic on them.
* `std::mt19937` together with `std::uniform_real_distribution<double>` is a
  stream of samples with a read position: `dist(rng)` returns the sample under
  the position and moves the position by one.
* `hash_nbits` comes from `hash.hpp`, which is not part of this file; it is a
  field of the generator record.
-/

namespace Rmat

/-! ## Data model -/

/-- The modulus of `uint64_t` arithmetic. -/
def U64 : Nat := 2 ^ 64

/-- The type `edge_type = std::pair<uint64_t, uint64_t>`. -/
abbrev edge_type : Type := Nat × Nat

/-- State of the random source `(m_dist, m_rng)`: the samples it will deliver and
the number of samples delivered so far. -/
structure Rng (α : Type) where
  stream : Nat → α
  pos : Nat

/-- One call `dist(rng)`: the sample under the read position, and the source
moved past it. -/
def Rng.draw {α : Type} (r : Rng α) : α × Rng α :=
  (r.stream r.pos, { stream := r.stream, pos := r.pos + 1 })

/-- The `const` data members of `rmat_edge_generator`, and the external
`hash_nbits` it calls.  The mutable member `m_rng` is passed separately, as in
the overload `generate_edge(dist, rng)`. -/
structure rmat_edge_generator (α : Type) where
  m_vertex_scale : Nat
  m_edge_count : Nat
  m_scramble : Bool
  m_undirected : Bool
  m_rmat_a : α
  m_rmat_b : α
  m_rmat_c : α
  m_rmat_d : α
  hash_nbits : Nat → Nat → Nat

/-- Data members of `input_iterator_type` other than the generator pointer. -/
structure input_iterator_type where
  m_count : Nat
  m_current : edge_type
  m_make_undirected : Bool
deriving DecidableEq

/-- Local variables of `generate_edge` that live across iterations of its loop. -/
structure level_state (α : Type) where
  u : Nat
  v : Nat
  step : Nat
  rmat_a : α
  rmat_b : α
  rmat_c : α
  rmat_d : α
  rng : Rng α

section Code

variable {α : Type} [LT α] [LE α] [∀ x y : α, Decidable (x < y)]
  [∀ x y : α, Decidable (x ≤ y)] [Add α] [Sub α] [Mul α] [Div α] [One α]
  [OfScientific α]

/-! ## `generate_edge` -/

/-- The `if` / `else if` chain of lines 143-152: the first component tells
whether `u += step` is executed, the second whether `v += step` is. -/
def select (a b c p : α) : Bool × Bool :=
  if p < a then (false, false)
  else if p ≥ a ∧ p < a + b then (false, true)
  else if p ≥ a + b ∧ p < a + b + c then (true, false)
  else (true, true)

/-- The normalising sum `S` of line 163, computed from the probabilities at the
start of the level and the four draws of lines 158-161. -/
def level_S (a b c d x y z w : α) : α :=
  a * (0.9 + 0.2 * x) + b * (0.9 + 0.2 * y) + c * (0.9 + 0.2 * z) + d * (0.9 + 0.2 * w)

/-- Lines 158-170: the four `*=` updates, the sum `S`, the three divisions and
the recomputation of `rmat_d`. -/
def perturb (a b c d x y z w : α) : α × α × α × α :=
  let a1 := a * (0.9 + 0.2 * x)
  let b1 := b * (0.9 + 0.2 * y)
  let c1 := c * (0.9 + 0.2 * z)
  let d1 := d * (0.9 + 0.2 * w)
  let S := a1 + b1 + c1 + d1
  let a2 := a1 / S
  let b2 := b1 / S
  let c2 := c1 / S
  (a2, b2, c2, 1 - a2 - b2 - c2)

/-- One iteration of the `for` loop of `generate_edge` (lines 141-170). -/
def level (s : level_state α) : level_state α :=
  let r0 := s.rng.draw
  let q := select s.rmat_a s.rmat_b s.rmat_c r0.1
  let r1 := r0.2.draw
  let r2 := r1.2.draw
  let r3 := r2.2.draw
  let r4 := r3.2.draw
  let w := perturb s.rmat_a s.rmat_b s.rmat_c s.rmat_d r1.1 r2.1 r3.1 r4.1
  { u := if q.1 then (s.u + s.step) % U64 else s.u
    v := if q.2 then (s.v + s.step) % U64 else s.v
    step := s.step / 2
    rmat_a := w.1
    rmat_b := w.2.1
    rmat_c := w.2.2.1
    rmat_d := w.2.2.2
    rng := r4.2 }

/-- The `for` loop of `generate_edge`, run for `n` iterations. -/
def levels : Nat → level_state α → level_state α
  | 0, s => s
  | n + 1, s => levels n (level s)

/-- Locals of `generate_edge` on entry to its loop (lines 134-139). -/
def level_init (g : rmat_edge_generator α) (rng : Rng α) : level_state α :=
  { u := 0
    v := 0
    step := ((1 <<< g.m_vertex_scale) % U64) / 2
    rmat_a := g.m_rmat_a
    rmat_b := g.m_rmat_b
    rmat_c := g.m_rmat_c
    rmat_d := g.m_rmat_d
    rng := rng }

/-- The member `generate_edge(dist, rng)`: the edge returned and the random
source after the call.  The loop counter `j` runs over `0 .. m_vertex_scale - 1`
(no wrap-around of `unsigned int` for `m_vertex_scale < 2 ^ 32`), and the shift
in line 139 is defined for `m_vertex_scale < 64`. -/
def generate_edge (g : rmat_edge_generator α) (rng : Rng α) : edge_type × Rng α :=
  let s := levels g.m_vertex_scale (level_init g rng)
  let u := if g.m_scramble then g.hash_nbits s.u g.m_vertex_scale else s.u
  let v := if g.m_scramble then g.hash_nbits s.v g.m_vertex_scale else s.v
  ((u, v), s.rng)

/-- The member `max_vertex_id`. -/
def max_vertex_id (g : rmat_edge_generator α) : Nat :=
  ((1 <<< g.m_vertex_scale) % U64 + U64 - 1) % U64

/-- The member `size`. -/
def size (g : rmat_edge_generator α) : Nat := g.m_edge_count

/-! ## `input_iterator_type` -/

/-- The member `get_next` (lines 75-83), acting on the iterator and on the random
source of the generator it points to. -/
def get_next (g : rmat_edge_generator α) (rng : Rng α) (it : input_iterator_type) :
    Rng α × input_iterator_type :=
  if g.m_undirected && it.m_make_undirected then
    (rng, { m_count := it.m_count
            m_current := (it.m_current.2, it.m_current.1)
            m_make_undirected := false })
  else
    let r := generate_edge g rng
    (r.2, { m_count := (it.m_count + 1) % U64
            m_current := r.1
            m_make_undirected := true })

/-- The two assertions that end `get_next` (lines 84-85). -/
def asserts_hold (g : rmat_edge_generator α) (it : input_iterator_type) : Prop :=
  it.m_current.1 ≤ max_vertex_id g ∧ it.m_current.2 ≤ max_vertex_id g

/-- The iterator after the member initialisers of the constructor:
`m_current` is a default-constructed pair, whose members are zero. -/
def iterator_fresh (count : Nat) : input_iterator_type :=
  { m_count := count, m_current := (0, 0), m_make_undirected := false }

/-- The constructor `input_iterator_type(ptr_rmat, count)` (lines 31-37). -/
def iterator_ctor (g : rmat_edge_generator α) (rng : Rng α) (count : Nat) :
    Rng α × input_iterator_type :=
  if count = 0 then
    let r := get_next g rng (iterator_fresh count)
    (r.1, { m_count := 0
            m_current := r.2.m_current
            m_make_undirected := r.2.m_make_undirected })
  else (rng, iterator_fresh count)

/-- The member `is_equal`, which is also `operator==`. -/
def is_equal (x y : input_iterator_type) : Bool := x.m_count == y.m_count

/-- The member `begin`. -/
def rmat_begin (g : rmat_edge_generator α) (rng : Rng α) : Rng α × input_iterator_type :=
  iterator_ctor g rng 0

/-- The member `end`. -/
def rmat_end (g : rmat_edge_generator α) (rng : Rng α) : Rng α × input_iterator_type :=
  iterator_ctor g rng g.m_edge_count

/-- The loop `while (itr != itr_end) { read *itr; ++itr; }` with a bound on the
number of times its condition is evaluated: the edges read, in order, and the
random source at exit; `none` when the bound is reached before the loop exits. -/
def walk (g : rmat_edge_generator α) :
    Nat → Rng α → input_iterator_type → input_iterator_type → Option (List edge_type × Rng α)
  | 0, _, _, _ => none
  | fuel + 1, rng, itr, itr_end =>
    if is_equal itr itr_end then some ([], rng)
    else
      let r := get_next g rng itr
      match walk g fuel r.1 r.2 itr_end with
      | none => none
      | some res => some (itr.m_current :: res.1, res.2)

/-- A traversal of the sequence: `itr = begin(); itr_end = end();` followed by
the loop `walk`. -/
def traverse (g : rmat_edge_generator α) (fuel : Nat) (rng : Rng α) :
    Option (List edge_type × Rng α) :=
  let b := rmat_begin g rng
  let e := rmat_end g b.1
  walk g fuel e.1 b.2 e.2

/-- The loop of `sanity_max_vertex_id` (lines 114-117) with a bound on the number
of times its condition is evaluated; its body does not advance `itr`. -/
def sanity_loop : Nat → input_iterator_type → input_iterator_type → Nat → Option Nat
  | 0, _, _, _ => none
  | fuel + 1, itr, itr_end, value =>
    if is_equal itr itr_end then some value
    else sanity_loop fuel itr itr_end (max (max value itr.m_current.1) itr.m_current.2)

/-- The member `sanity_max_vertex_id` up to its final assertion: the content of
`value` when the loop exits, `none` when it has not exited within the bound. -/
def sanity_max_vertex_id (g : rmat_edge_generator α) (fuel : Nat) (rng : Rng α) :
    Option Nat :=
  let b := rmat_begin g rng
  let e := rmat_end g b.1
  sanity_loop fuel b.2 e.2 0

/-- The random source after `n` successive calls of `generate_edge`. -/
def gen_rng (g : rmat_edge_generator α) : Nat → Rng α → Rng α
  | 0, rng => rng
  | n + 1, rng => gen_rng g n (generate_edge g rng).2

/-- The edges returned by `n` successive calls of `generate_edge`. -/
def gen_seq (g : rmat_edge_generator α) : Nat → Rng α → List edge_type
  | 0, _ => []
  | n + 1, rng => (generate_edge g rng).1 :: gen_seq g n (generate_edge g rng).2

/-- Each edge of a list followed by the edge with its endpoints exchanged. -/
def twins : List edge_type → List edge_type
  | [] => []
  | e :: es => e :: (e.2, e.1) :: twins es

/-- Iterators a program can hold on a generator `g`: the state at the start of the
constructor body, the constructed iterator, and every iterator obtained from one
of these by `get_next`, whatever the state of the shared random source is at each
call. -/
inductive Reachable (g : rmat_edge_generator α) : input_iterator_type → Prop
  | fresh (count : Nat) : Reachable g (iterator_fresh count)
  | ctor (rng : Rng α) (count : Nat) : Reachable g (iterator_ctor g rng count).2
  | next (rng : Rng α) (it : input_iterator_type) :
      Reachable g it → Reachable g (get_next g rng it).2

/-- The sum of the four working probabilities held in the loop state. -/
def working_sum (s : level_state α) : α :=
  s.rmat_a + s.rmat_b + s.rmat_c + s.rmat_d

/-- The normalising sum `S` that the iteration starting in state `s` computes:
the draw under the read position selects the quadrant, the next four feed the
`*=` updates of `rmat_a`, `rmat_b`, `rmat_c`, `rmat_d`. -/
def norm_sum (s : level_state α) : α :=
  level_S s.rmat_a s.rmat_b s.rmat_c s.rmat_d
    (s.rng.stream (s.rng.pos + 1)) (s.rng.stream (s.rng.pos + 2))
    (s.rng.stream (s.rng.pos + 3)) (s.rng.stream (s.rng.pos + 4))

/-- Follows the wording of the specification, not the code: quadrant selection
by cumulative thresholds, "if p < a, no change; else if p < a+b, v += step; else
if p < a+b+c, u += step; else u += step and v += step". -/
def select_cumulative (a b c p : α) : Bool × Bool :=
  if p < a then (false, false)
  else if p < a + b then (false, true)
  else if p < a + b + c then (true, false)
  else (true, true)

/-- Follows the wording of the specification, not the code: one level maps
`(a, b, c, d)` and three perturbation draws `(x, y, z)` to the renormalised
quadruple, the normalising sum taking `d` as carried in from the previous
level. -/
def perturb_three_draws (a b c d x y z : α) : α × α × α × α :=
  let fa := 0.9 + 0.2 * x
  let fb := 0.9 + 0.2 * y
  let fc := 0.9 + 0.2 * z
  let S := a * fa + b * fb + c * fc + d
  (a * fa / S, b * fb / S, c * fc / S, 1 - a * fa / S - b * fb / S - c * fc / S)

/-- The result of `n` successive applications of `operator++` to an iterator,
threaded through the random source of its generator. -/
def advance_n (g : rmat_edge_generator α) :
    Nat → Rng α × input_iterator_type → Rng α × input_iterator_type
  | 0, st => st
  | n + 1, st => advance_n g n (get_next g st.1 st.2)

/-- The quadrant chosen by the iteration of the loop of `generate_edge` that
starts in state `s`: whether it adds `step` to `u`, and whether it adds it to `v`. -/
def level_choice (s : level_state α) : Bool × Bool :=
  select s.rmat_a s.rmat_b s.rmat_c s.rng.draw.1

/-- Number of calls of `generate_edge` made by one call of `get_next` on `it`:
none in the branch that swaps, one in the other branch. -/
def get_next_calls (g : rmat_edge_generator α) (it : input_iterator_type) : Nat :=
  if g.m_undirected && it.m_make_undirected then 0 else 1

/-- Number of calls of `generate_edge` made by the constructor
`input_iterator_type(ptr_rmat, count)`. -/
def iterator_ctor_calls (g : rmat_edge_generator α) (count : Nat) : Nat :=
  if count = 0 then get_next_calls g (iterator_fresh count) else 0

/-- Number of calls of `generate_edge` made by the loop `walk`, under the same
bound on the evaluations of its condition. -/
def walk_calls (g : rmat_edge_generator α) :
    Nat → Rng α → input_iterator_type → input_iterator_type → Option Nat
  | 0, _, _, _ => none
  | fuel + 1, rng, itr, itr_end =>
    if is_equal itr itr_end then some 0
    else
      let r := get_next g rng itr
      match walk_calls g fuel r.1 r.2 itr_end with
      | none => none
      | some n => some (get_next_calls g itr + n)

/-- Number of calls of `generate_edge` made by `traverse`: those of `begin()`, of
`end()` and of the loop. -/
def traverse_calls (g : rmat_edge_generator α) (fuel : Nat) (rng : Rng α) : Option Nat :=
  let b := rmat_begin g rng
  let e := rmat_end g b.1
  match walk_calls g fuel e.1 b.2 e.2 with
  | none => none
  | some n => some (iterator_ctor_calls g 0 + iterator_ctor_calls g g.m_edge_count + n)

/-- The final assertion of `sanity_max_vertex_id` (line 120), evaluated on the
content of `value` at the exit of the loop; `none` when the loop has not exited
within the bound. -/
def sanity_assert (g : rmat_edge_generator α) (fuel : Nat) (rng : Rng α) : Option Bool :=
  match sanity_max_vertex_id g fuel rng with
  | none => none
  | some value => some (max_vertex_id g == value)

/-- Two random sources that deliver the same samples from now on. -/
def same_samples (r1 r2 : Rng α) : Prop :=
  ∀ i : Nat, r1.stream (r1.pos + i) = r2.stream (r2.pos + i)

end Code

/-! ## Concrete inputs -/

/-- A range-preserving stand-in for `hash_nbits`, used in examples only. -/
def example_hash (x n : Nat) : Nat := (5 * x + 3) % 2 ^ n

/-- A generator over the rationals with the probabilities `0.57, 0.19, 0.19, 0.05`. -/
def example_generator (scramble undirected : Bool) (vertex_scale edge_count : Nat) :
    rmat_edge_generator ℚ :=
  { m_vertex_scale := vertex_scale
    m_edge_count := edge_count
    m_scramble := scramble
    m_undirected := undirected
    m_rmat_a := 57 / 100
    m_rmat_b := 19 / 100
    m_rmat_c := 19 / 100
    m_rmat_d := 5 / 100
    hash_nbits := example_hash }

/-- A random source over the rationals: sample `i` is `((37 * i + 11) mod 100) / 100`. -/
def example_rng : Rng ℚ :=
  { stream := fun i => (((37 * i + 11) % 100 : Nat) : ℚ) / 100, pos := 0 }

/-- The samples of `example_rng`, delivered by a source that has already delivered
seven other samples. -/
def example_rng_shifted : Rng ℚ :=
  { stream := fun i => (((37 * (i - 7) + 11) % 100 : Nat) : ℚ) / 100, pos := 7 }

/-- A generator over the rationals with the probabilities `0.1, 0.3, 0.3, 0.3`. -/
def example_generator_skew (vertex_scale edge_count : Nat) : rmat_edge_generator ℚ :=
  { m_vertex_scale := vertex_scale
    m_edge_count := edge_count
    m_scramble := false
    m_undirected := false
    m_rmat_a := 1 / 10
    m_rmat_b := 3 / 10
    m_rmat_c := 3 / 10
    m_rmat_d := 3 / 10
    hash_nbits := example_hash }

/-- A random source over the rationals whose sample 1 is `0` and whose other
samples are `0.9`. -/
def example_rng_skew : Rng ℚ :=
  { stream := fun i => if i = 1 then 0 else 9 / 10, pos := 0 }

/-! ## Vertex ids stay within `max_vertex_id` -/

section Bounds

variable {α : Type}

theorem shift_lt_U64 {n : Nat} (h : n < 64) : (1 <<< n) % U64 = 2 ^ n := by
  rw [Nat.one_shiftLeft]
  apply Nat.mod_eq_of_lt
  exact Nat.pow_lt_pow_right (by decide) h

theorem max_vertex_id_eq (g : rmat_edge_generator α) (h : g.m_vertex_scale < 64) :
    max_vertex_id g = 2 ^ g.m_vertex_scale - 1 := by
  have hp : 0 < 2 ^ g.m_vertex_scale := Nat.two_pow_pos _
  have hlt : 2 ^ g.m_vertex_scale < U64 := Nat.pow_lt_pow_right (by decide) h
  unfold max_vertex_id
  rw [shift_lt_U64 h]
  have : 2 ^ g.m_vertex_scale + U64 - 1 = (2 ^ g.m_vertex_scale - 1) + U64 := by omega
  rw [this, Nat.add_mod_right]
  exact Nat.mod_eq_of_lt (by omega)

variable [LT α] [LE α] [∀ x y : α, Decidable (x < y)]
  [∀ x y : α, Decidable (x ≤ y)] [Add α] [Sub α] [Mul α] [Div α] [One α]
  [OfScientific α]

theorem add_step_bound {B x step : Nat} (hx : x < B) (hs : x + 2 * step ≤ B) (q : Bool) :
    (if q then (x + step) % U64 else x) < B ∧
      (if q then (x + step) % U64 else x) + 2 * (step / 2) ≤ B := by
  have h2 : 2 * (step / 2) ≤ step := Nat.mul_div_le step 2
  cases q
  · simp only [Bool.false_eq_true, if_false]
    exact ⟨hx, by omega⟩
  · simp only [if_true]
    have hm : (x + step) % U64 ≤ x + step := Nat.mod_le _ _
    rcases Nat.eq_zero_or_pos step with h0 | hpos
    · subst h0
      simp only [Nat.add_zero] at hm ⊢
      exact ⟨by omega, by omega⟩
    · exact ⟨by omega, by omega⟩

theorem level_bound {B : Nat} (s : level_state α)
    (hu : s.u < B ∧ s.u + 2 * s.step ≤ B) (hv : s.v < B ∧ s.v + 2 * s.step ≤ B) :
    ((level s).u < B ∧ (level s).u + 2 * (level s).step ≤ B) ∧
      ((level s).v < B ∧ (level s).v + 2 * (level s).step ≤ B) :=
  ⟨add_step_bound hu.1 hu.2 _, add_step_bound hv.1 hv.2 _⟩

theorem levels_bound {B : Nat} (n : Nat) (s : level_state α)
    (hu : s.u < B ∧ s.u + 2 * s.step ≤ B) (hv : s.v < B ∧ s.v + 2 * s.step ≤ B) :
    (levels n s).u < B ∧ (levels n s).v < B := by
  induction n generalizing s with
  | zero => exact ⟨hu.1, hv.1⟩
  | succ n ih =>
    have h := level_bound s hu hv
    exact ih (level s) h.1 h.2

theorem generate_edge_bound (g : rmat_edge_generator α) (rng : Rng α)
    (hvs : g.m_vertex_scale < 64)
    (hhash : g.m_scramble = true →
      ∀ x n : Nat, x < 2 ^ n → g.hash_nbits x n < 2 ^ n) :
    (generate_edge g rng).1.1 ≤ max_vertex_id g ∧
      (generate_edge g rng).1.2 ≤ max_vertex_id g := by
  have hp : 0 < 2 ^ g.m_vertex_scale := Nat.two_pow_pos _
  have hstep : 2 * ((1 <<< g.m_vertex_scale) % U64 / 2) ≤ 2 ^ g.m_vertex_scale := by
    rw [shift_lt_U64 hvs]
    exact Nat.mul_div_le _ 2
  have h0 : (level_init g rng).u < 2 ^ g.m_vertex_scale ∧
      (level_init g rng).u + 2 * (level_init g rng).step ≤ 2 ^ g.m_vertex_scale := by
    simp only [level_init, Nat.zero_add]
    exact ⟨hp, hstep⟩
  have h1 : (level_init g rng).v < 2 ^ g.m_vertex_scale ∧
      (level_init g rng).v + 2 * (level_init g rng).step ≤ 2 ^ g.m_vertex_scale := by
    simp only [level_init, Nat.zero_add]
    exact ⟨hp, hstep⟩
  have hb := levels_bound g.m_vertex_scale (level_init g rng) h0 h1
  rw [max_vertex_id_eq g hvs]
  simp only [generate_edge]
  cases hsc : g.m_scramble
  · simp only [Bool.false_eq_true, if_false]
    exact ⟨by omega, by omega⟩
  · simp only [if_true]
    have hu := hhash hsc _ _ hb.1
    have hv := hhash hsc _ _ hb.2
    exact ⟨by omega, by omega⟩

theorem get_next_asserts_of_inv (g : rmat_edge_generator α) (rng : Rng α)
    (it : input_iterator_type) (hvs : g.m_vertex_scale < 64)
    (hhash : g.m_scramble = true →
      ∀ x n : Nat, x < 2 ^ n → g.hash_nbits x n < 2 ^ n)
    (hinv : it.m_make_undirected = true → asserts_hold g it) :
    asserts_hold g (get_next g rng it).2 := by
  unfold get_next
  split
  · next hc =>
    simp only [Bool.and_eq_true] at hc
    have h := hinv hc.2
    exact ⟨h.2, h.1⟩
  · exact generate_edge_bound g rng hvs hhash

theorem reachable_inv (g : rmat_edge_generator α) (it : input_iterator_type)
    (hvs : g.m_vertex_scale < 64)
    (hhash : g.m_scramble = true →
      ∀ x n : Nat, x < 2 ^ n → g.hash_nbits x n < 2 ^ n)
    (hr : Reachable g it) : it.m_make_undirected = true → asserts_hold g it := by
  induction hr with
  | fresh count => intro h; simp [iterator_fresh] at h
  | ctor rng count =>
    intro _
    unfold iterator_ctor
    split
    · exact get_next_asserts_of_inv g rng _ hvs hhash (by intro h; simp [iterator_fresh] at h)
    · simp [asserts_hold, iterator_fresh]
  | next rng it _ ih =>
    intro _
    exact get_next_asserts_of_inv g rng it hvs hhash ih

end Bounds

/-! ## Traversals of the sequence -/

section Traversal

theorem twins_length (l : List edge_type) : (twins l).length = 2 * l.length := by
  induction l with
  | nil => rfl
  | cons e es ih => simp only [twins, List.length_cons, ih]; omega

theorem twins_even (l : List edge_type) (k : Nat) : (twins l)[2 * k]? = l[k]? := by
  induction l generalizing k with
  | nil => simp [twins]
  | cons e es ih =>
    cases k with
    | zero => simp [twins]
    | succ k =>
      have h : 2 * (k + 1) = 2 * k + 1 + 1 := by omega
      rw [h]
      simp only [twins, List.getElem?_cons_succ]
      exact ih k

theorem twins_odd (l : List edge_type) (k : Nat) :
    (twins l)[2 * k + 1]? = (l[k]?).map (fun e => (e.2, e.1)) := by
  induction l generalizing k with
  | nil => simp [twins]
  | cons e es ih =>
    cases k with
    | zero => simp [twins]
    | succ k =>
      have h : 2 * (k + 1) + 1 = 2 * k + 1 + 1 + 1 := by omega
      rw [h]
      simp only [twins, List.getElem?_cons_succ]
      exact ih k

variable {α : Type} [LT α] [LE α] [∀ x y : α, Decidable (x < y)]
  [∀ x y : α, Decidable (x ≤ y)] [Add α] [Sub α] [Mul α] [Div α] [One α]
  [OfScientific α]

theorem gen_seq_length (g : rmat_edge_generator α) (n : Nat) (rng : Rng α) :
    (gen_seq g n rng).length = n := by
  induction n generalizing rng with
  | zero => rfl
  | succ n ih => simp only [gen_seq, List.length_cons, ih]

theorem gen_seq_take (g : rmat_edge_generator α) (n : Nat) (rng : Rng α) :
    (gen_seq g (n + 1) rng).take n = gen_seq g n rng := by
  induction n generalizing rng with
  | zero => rfl
  | succ n ih =>
    rw [gen_seq, List.take_succ_cons, ih]
    rfl

theorem get_next_generate (g : rmat_edge_generator α) (rng : Rng α)
    (it : input_iterator_type) (h : (g.m_undirected && it.m_make_undirected) = false) :
    get_next g rng it =
      ((generate_edge g rng).2,
        { m_count := (it.m_count + 1) % U64
          m_current := (generate_edge g rng).1
          m_make_undirected := true }) := by
  unfold get_next
  rw [h]
  rfl

theorem get_next_swap (g : rmat_edge_generator α) (rng : Rng α)
    (it : input_iterator_type) (h : (g.m_undirected && it.m_make_undirected) = true) :
    get_next g rng it =
      (rng, { m_count := it.m_count
              m_current := (it.m_current.2, it.m_current.1)
              m_make_undirected := false }) := by
  unfold get_next
  rw [h]
  rfl

theorem walk_directed (g : rmat_edge_generator α) (hd : g.m_undirected = false)
    (itr_end : input_iterator_type) (hN : itr_end.m_count < U64) (n : Nat) :
    ∀ (fuel : Nat) (rng : Rng α) (itr : input_iterator_type),
      itr.m_count + n = itr_end.m_count → n < fuel →
      walk g fuel rng itr itr_end =
        some ((itr.m_current :: gen_seq g n rng).take n, gen_rng g n rng) := by
  induction n with
  | zero =>
    intro fuel rng itr hc hf
    obtain ⟨f, rfl⟩ : ∃ f, fuel = f + 1 := ⟨fuel - 1, by omega⟩
    have he : is_equal itr itr_end = true := by simp [is_equal]; omega
    simp [walk, he, gen_rng]
  | succ n ih =>
    intro fuel rng itr hc hf
    obtain ⟨f, rfl⟩ : ∃ f, fuel = f + 1 := ⟨fuel - 1, by omega⟩
    have he : is_equal itr itr_end = false := by simp [is_equal]; omega
    have hg := get_next_generate g rng itr (by simp [hd])
    have hm : (itr.m_count + 1) % U64 = itr.m_count + 1 := Nat.mod_eq_of_lt (by omega)
    rw [hm] at hg
    have hrec := ih f (generate_edge g rng).2
      { m_count := itr.m_count + 1
        m_current := (generate_edge g rng).1
        m_make_undirected := true } (by simp only; omega) (by omega)
    simp only [walk, he, hg, hrec, gen_seq, gen_rng, List.take_succ_cons]
    rfl

theorem walk_undirected (g : rmat_edge_generator α) (hu : g.m_undirected = true)
    (itr_end : input_iterator_type) (hN : itr_end.m_count < U64) (n : Nat) :
    ∀ (fuel : Nat) (rng : Rng α) (itr : input_iterator_type),
      itr.m_make_undirected = true →
      itr.m_count + n = itr_end.m_count → 2 * n < fuel →
      walk g fuel rng itr itr_end =
        some (twins ((itr.m_current :: gen_seq g n rng).take n), gen_rng g n rng) := by
  induction n with
  | zero =>
    intro fuel rng itr _ hc hf
    obtain ⟨f, rfl⟩ : ∃ f, fuel = f + 1 := ⟨fuel - 1, by omega⟩
    have he : is_equal itr itr_end = true := by simp [is_equal]; omega
    simp [walk, he, gen_rng, twins]
  | succ n ih =>
    intro fuel rng itr hmu hc hf
    obtain ⟨f, rfl⟩ : ∃ f, fuel = f + 1 + 1 := ⟨fuel - 2, by omega⟩
    have he : is_equal itr itr_end = false := by simp [is_equal]; omega
    have hs := get_next_swap g rng itr (by simp [hu, hmu])
    have he2 : is_equal
        { m_count := itr.m_count
          m_current := (itr.m_current.2, itr.m_current.1)
          m_make_undirected := false } itr_end = false := by simp [is_equal]; omega
    have hg := get_next_generate g rng
        { m_count := itr.m_count
          m_current := (itr.m_current.2, itr.m_current.1)
          m_make_undirected := false } (by simp)
    have hm : (itr.m_count + 1) % U64 = itr.m_count + 1 := Nat.mod_eq_of_lt (by omega)
    simp only [hm] at hg
    have hrec := ih f (generate_edge g rng).2
      { m_count := itr.m_count + 1
        m_current := (generate_edge g rng).1
        m_make_undirected := true } rfl (by simp only; omega) (by omega)
    simp only [walk, he, hs, he2, hg, hrec, gen_seq, gen_rng, List.take_succ_cons, twins]
    rfl

theorem begin_eq (g : rmat_edge_generator α) (rng : Rng α) :
    rmat_begin g rng =
      ((generate_edge g rng).2,
        { m_count := 0
          m_current := (generate_edge g rng).1
          m_make_undirected := true }) := by
  have hg := get_next_generate g rng (iterator_fresh 0) (by simp [iterator_fresh])
  simp only [rmat_begin, iterator_ctor, if_true, hg]

theorem end_eq_of_pos (g : rmat_edge_generator α) (rng : Rng α) (h : g.m_edge_count ≠ 0) :
    rmat_end g rng = (rng, iterator_fresh g.m_edge_count) := by
  simp only [rmat_end, iterator_ctor, h, if_false]

theorem end_eq_of_zero (g : rmat_edge_generator α) (rng : Rng α) (h : g.m_edge_count = 0) :
    rmat_end g rng =
      ((generate_edge g rng).2,
        { m_count := 0
          m_current := (generate_edge g rng).1
          m_make_undirected := true }) := by
  have hg := get_next_generate g rng (iterator_fresh 0) (by simp [iterator_fresh])
  simp only [rmat_end, iterator_ctor, h, if_true, hg]

/-- The edges a traversal reads and the random source it leaves behind. -/
theorem traverse_eq (g : rmat_edge_generator α) (rng : Rng α)
    (hN : g.m_edge_count < U64) (fuel : Nat)
    (hf : (if g.m_undirected then 2 * g.m_edge_count else g.m_edge_count) < fuel) :
    traverse g fuel rng =
      some (if g.m_undirected then twins (gen_seq g g.m_edge_count rng)
              else gen_seq g g.m_edge_count rng,
            gen_rng g (if g.m_edge_count = 0 then 2 else g.m_edge_count + 1) rng) := by
  by_cases h0 : g.m_edge_count = 0
  · obtain ⟨f, rfl⟩ : ∃ f, fuel = f + 1 := ⟨fuel - 1, by omega⟩
    simp only [traverse, begin_eq, end_eq_of_zero g _ h0, walk, is_equal, beq_self_eq_true,
      if_true, h0, gen_seq, twins, ite_self, gen_rng]
  · simp only [traverse, begin_eq, end_eq_of_pos g _ h0, h0, if_false]
    cases hu : g.m_undirected
    · simp only [hu, Bool.false_eq_true, if_false] at hf ⊢
      have hw := walk_directed g hu (iterator_fresh g.m_edge_count)
        (by simpa [iterator_fresh] using hN) g.m_edge_count fuel (generate_edge g rng).2
        { m_count := 0
          m_current := (generate_edge g rng).1
          m_make_undirected := true } (by simp [iterator_fresh]) hf
      rw [hw]
      have ht := gen_seq_take g g.m_edge_count rng
      simp only [gen_seq] at ht
      simp only [ht, gen_rng]
    · simp only [hu, if_true] at hf ⊢
      have hw := walk_undirected g hu (iterator_fresh g.m_edge_count)
        (by simpa [iterator_fresh] using hN) g.m_edge_count fuel (generate_edge g rng).2
        { m_count := 0
          m_current := (generate_edge g rng).1
          m_make_undirected := true } rfl (by simp [iterator_fresh]) hf
      rw [hw]
      have ht := gen_seq_take g g.m_edge_count rng
      simp only [gen_seq] at ht
      simp only [ht, gen_rng]

theorem generate_edge_undirected_irrelevant (g : rmat_edge_generator α) (b : Bool)
    (rng : Rng α) :
    generate_edge { g with m_undirected := b } rng = generate_edge g rng := rfl

theorem gen_seq_undirected_irrelevant (g : rmat_edge_generator α) (b : Bool) (n : Nat)
    (rng : Rng α) :
    gen_seq { g with m_undirected := b } n rng = gen_seq g n rng := by
  induction n generalizing rng with
  | zero => rfl
  | succ n ih => simp only [gen_seq, generate_edge_undirected_irrelevant, ih]

theorem gen_rng_undirected_irrelevant (g : rmat_edge_generator α) (b : Bool) (n : Nat)
    (rng : Rng α) :
    gen_rng { g with m_undirected := b } n rng = gen_rng g n rng := by
  induction n generalizing rng with
  | zero => rfl
  | succ n ih => simp only [gen_rng, generate_edge_undirected_irrelevant, ih]

/-! ## Claims on the iterator -/

/-- C1: for a generator with `m_vertex_scale < 64` (and, when `m_scramble` is set,
a `hash_nbits` that maps ids below `2 ^ n` to ids below `2 ^ n`), whatever the state
of the random source, both assertions at the end of `get_next` hold for every
iterator a program can hold, be the new edge freshly synthesized or the swapped
twin; and `max_vertex_id()` is `2 ^ m_vertex_scale - 1`. -/
theorem get_next_within_max_vertex_id (g : rmat_edge_generator α) (rng : Rng α)
    (it : input_iterator_type) (hvs : g.m_vertex_scale < 64)
    (hhash : g.m_scramble = true →
      ∀ x n : Nat, x < 2 ^ n → g.hash_nbits x n < 2 ^ n)
    (hr : Reachable g it) :
    (get_next g rng it).2.m_current.1 ≤ 2 ^ g.m_vertex_scale - 1 ∧
      (get_next g rng it).2.m_current.2 ≤ 2 ^ g.m_vertex_scale - 1 ∧
      asserts_hold g (get_next g rng it).2 ∧
      max_vertex_id g = 2 ^ g.m_vertex_scale - 1 := by
  have h := get_next_asserts_of_inv g rng it hvs hhash (reachable_inv g it hvs hhash hr)
  have hm := max_vertex_id_eq g hvs
  refine ⟨?_, ?_, h, hm⟩
  · rw [← hm]; exact h.1
  · rw [← hm]; exact h.2

theorem get_next_within_max_vertex_id_witness :
    (get_next (example_generator true true 3 2) example_rng
        (get_next (example_generator true true 3 2) example_rng
          (iterator_fresh 0)).2).2.m_current.1 ≤ 2 ^ 3 - 1 ∧
      (get_next (example_generator true true 3 2) example_rng
        (get_next (example_generator true true 3 2) example_rng
          (iterator_fresh 0)).2).2.m_current.2 ≤ 2 ^ 3 - 1 ∧
      asserts_hold (example_generator true true 3 2)
        (get_next (example_generator true true 3 2) example_rng
          (get_next (example_generator true true 3 2) example_rng
            (iterator_fresh 0)).2).2 ∧
      max_vertex_id (example_generator true true 3 2) = 2 ^ 3 - 1 :=
  get_next_within_max_vertex_id (example_generator true true 3 2) example_rng
    (get_next (example_generator true true 3 2) example_rng (iterator_fresh 0)).2
    (by decide)
    (fun _ _ n _ => Nat.mod_lt _ (Nat.two_pow_pos n))
    (Reachable.next _ _ (Reachable.fresh 0))

/-- C2: for every `edge_count = N` (a `uint64_t`) and every random source, the loop
from `begin()` to `end()` exits, having read exactly `N` edges when `m_undirected`
is false and exactly `2 * N` when it is true; `size()` is `N` in both cases. -/
theorem traverse_length (g : rmat_edge_generator α) (rng : Rng α) (fuel : Nat)
    (hN : g.m_edge_count < U64)
    (hf : (if g.m_undirected then 2 * g.m_edge_count else g.m_edge_count) < fuel) :
    ∃ (es : List edge_type) (r : Rng α),
      traverse g fuel rng = some (es, r) ∧
      es.length = (if g.m_undirected then 2 * g.m_edge_count else g.m_edge_count) ∧
      size g = g.m_edge_count := by
  refine ⟨_, _, traverse_eq g rng hN fuel hf, ?_, rfl⟩
  cases hu : g.m_undirected
  · simp [gen_seq_length]
  · simp [twins_length, gen_seq_length]

theorem traverse_length_witness :
    ∃ (es : List edge_type) (r : Rng ℚ),
      traverse (example_generator false true 3 2) 5 example_rng = some (es, r) ∧
      es.length = (if (example_generator false true 3 2).m_undirected
        then 2 * (example_generator false true 3 2).m_edge_count
        else (example_generator false true 3 2).m_edge_count) ∧
      size (example_generator false true 3 2) =
        (example_generator false true 3 2).m_edge_count :=
  traverse_length (example_generator false true 3 2) example_rng 5
    (by decide) (by decide)

/-- C3: when `m_undirected` is true, for every `k < edge_count` the sequence read
from `begin()` to `end()` has an edge `(u, v)` at position `2 * k` and the edge
`(v, u)` at position `2 * k + 1`. -/
theorem traverse_twin_follows (g : rmat_edge_generator α) (rng : Rng α) (fuel : Nat)
    (hu : g.m_undirected = true) (hN : g.m_edge_count < U64)
    (hf : 2 * g.m_edge_count < fuel) :
    ∃ (es : List edge_type) (r : Rng α),
      traverse g fuel rng = some (es, r) ∧
      ∀ k, k < g.m_edge_count →
        ∃ u v : Nat, es[2 * k]? = some (u, v) ∧ es[2 * k + 1]? = some (v, u) := by
  have ht := traverse_eq g rng hN fuel (by simpa [hu] using hf)
  simp only [hu, if_true] at ht
  refine ⟨_, _, ht, ?_⟩
  intro k hk
  have hlen : k < (gen_seq g g.m_edge_count rng).length := by
    rw [gen_seq_length]; exact hk
  refine ⟨((gen_seq g g.m_edge_count rng)[k]).1, ((gen_seq g g.m_edge_count rng)[k]).2, ?_, ?_⟩
  · rw [twins_even, List.getElem?_eq_getElem hlen]
  · rw [twins_odd, List.getElem?_eq_getElem hlen]
    rfl

theorem traverse_twin_follows_witness :
    ∃ (es : List edge_type) (r : Rng ℚ),
      traverse (example_generator false true 3 2) 5 example_rng = some (es, r) ∧
      ∀ k, k < (example_generator false true 3 2).m_edge_count →
        ∃ u v : Nat, es[2 * k]? = some (u, v) ∧ es[2 * k + 1]? = some (v, u) :=
  traverse_twin_follows (example_generator false true 3 2) example_rng 5
    rfl (by decide) (by decide)

/-- C4: the twin step leaves the random source untouched, and for two generators
that differ only in `m_undirected`, started on the same random source, both
traversals exit, the undirected one reads twice as many edges, its edge at position
`2 * k` is the edge at position `k` of the directed one for every `k`, and both
leave the random source in the same state. -/
theorem undirected_even_positions (g : rmat_edge_generator α) (rng : Rng α) (fuel : Nat)
    (hN : g.m_edge_count < U64) (hf : 2 * g.m_edge_count < fuel) :
    (∀ (r0 : Rng α) (it : input_iterator_type), it.m_make_undirected = true →
        (get_next { g with m_undirected := true } r0 it).1 = r0) ∧
    ∃ (ed eu : List edge_type) (r : Rng α),
      traverse { g with m_undirected := false } fuel rng = some (ed, r) ∧
      traverse { g with m_undirected := true } fuel rng = some (eu, r) ∧
      eu.length = 2 * ed.length ∧
      ∀ k, eu[2 * k]? = ed[k]? := by
  constructor
  · intro r0 it hit
    rw [get_next_swap _ r0 it (by simp [hit])]
  · have hd := traverse_eq { g with m_undirected := false } rng hN fuel
      (by simp only [Bool.false_eq_true, if_false]; omega)
    have hu := traverse_eq { g with m_undirected := true } rng hN fuel
      (by simpa using hf)
    simp only [Bool.false_eq_true, if_false, if_true, gen_seq_undirected_irrelevant,
      gen_rng_undirected_irrelevant] at hd hu
    exact ⟨_, _, _, hd, hu, twins_length _, twins_even _⟩

theorem undirected_even_positions_witness :
    (∀ (r0 : Rng ℚ) (it : input_iterator_type), it.m_make_undirected = true →
        (get_next { example_generator false false 3 2 with m_undirected := true } r0 it).1
          = r0) ∧
    ∃ (ed eu : List edge_type) (r : Rng ℚ),
      traverse { example_generator false false 3 2 with m_undirected := false } 5
        example_rng = some (ed, r) ∧
      traverse { example_generator false false 3 2 with m_undirected := true } 5
        example_rng = some (eu, r) ∧
      eu.length = 2 * ed.length ∧
      ∀ k, eu[2 * k]? = ed[k]? :=
  undirected_even_positions (example_generator false false 3 2) example_rng 5
    (by decide) (by decide)

end Traversal

/-! ## Claims on `generate_edge` -/

section Draws

variable {α : Type} [LT α] [LE α] [∀ x y : α, Decidable (x < y)]
  [∀ x y : α, Decidable (x ≤ y)] [Add α] [Sub α] [Mul α] [Div α] [One α]
  [OfScientific α]

theorem level_rng (s : level_state α) :
    (level s).rng = { stream := s.rng.stream, pos := s.rng.pos + 5 } := rfl

theorem levels_succ (n : Nat) (s : level_state α) :
    levels (n + 1) s = level (levels n s) := by
  induction n generalizing s with
  | zero => rfl
  | succ n ih =>
    have h : levels (n + 1 + 1) s = levels (n + 1) (level s) := rfl
    rw [h, ih (level s)]
    rfl

theorem levels_rng (n : Nat) (s : level_state α) :
    (levels n s).rng = { stream := s.rng.stream, pos := s.rng.pos + 5 * n } := by
  induction n with
  | zero => rfl
  | succ n ih =>
    rw [levels_succ, level_rng, ih]
    simp only [Rng.mk.injEq, true_and]
    omega

theorem generate_edge_rng (g : rmat_edge_generator α) (rng : Rng α) :
    (generate_edge g rng).2 =
      { stream := rng.stream, pos := rng.pos + 5 * g.m_vertex_scale } := by
  simp only [generate_edge, levels_rng, level_init]

/-- C6 as stated fails: on a generator with one level, `generate_edge` moves the
random source by five samples, not four. -/
theorem generate_edge_draws_not_four :
    (level (level_init (example_generator false false 1 1) example_rng)).rng.pos
        ≠ example_rng.pos + 4 ∧
      (generate_edge (example_generator false false 1 1) example_rng).2.pos
        ≠ example_rng.pos + 4 * (example_generator false false 1 1).m_vertex_scale := by
  decide

/-- C6 amended: each iteration of the loop of `generate_edge` consumes exactly five
samples, the first for the quadrant selection and the next four for the updates of
`rmat_a`, `rmat_b`, `rmat_c` and `rmat_d`, in this order; one call of
`generate_edge` consumes exactly `5 * m_vertex_scale` samples. -/
theorem generate_edge_draws_five (g : rmat_edge_generator α) (rng : Rng α)
    (s : level_state α) :
    (level s).rng.pos = s.rng.pos + 5 ∧
    (level s).rng.stream = s.rng.stream ∧
    (level s).u = (if (select s.rmat_a s.rmat_b s.rmat_c (s.rng.stream s.rng.pos)).1
      then (s.u + s.step) % U64 else s.u) ∧
    (level s).v = (if (select s.rmat_a s.rmat_b s.rmat_c (s.rng.stream s.rng.pos)).2
      then (s.v + s.step) % U64 else s.v) ∧
    ((level s).rmat_a, (level s).rmat_b, (level s).rmat_c, (level s).rmat_d) =
      perturb s.rmat_a s.rmat_b s.rmat_c s.rmat_d
        (s.rng.stream (s.rng.pos + 1)) (s.rng.stream (s.rng.pos + 2))
        (s.rng.stream (s.rng.pos + 3)) (s.rng.stream (s.rng.pos + 4)) ∧
    (generate_edge g rng).2.pos = rng.pos + 5 * g.m_vertex_scale ∧
    (generate_edge g rng).2.stream = rng.stream := by
  refine ⟨rfl, rfl, rfl, rfl, rfl, ?_, ?_⟩
  · rw [generate_edge_rng]
  · rw [generate_edge_rng]

/-- C9: on the same configuration and random source, `generate_edge` with
`m_scramble` set returns `hash_nbits` applied, once and separately, to each id it
returns with `m_scramble` unset, and leaves the random source in the same state;
the loop state, hence the unscrambled result, does not depend on `hash_nbits`. -/
theorem generate_edge_scramble (g : rmat_edge_generator α) (rng : Rng α)
    (h : Nat → Nat → Nat) :
    (generate_edge { g with m_scramble := true } rng).1 =
      (g.hash_nbits (generate_edge { g with m_scramble := false } rng).1.1 g.m_vertex_scale,
       g.hash_nbits (generate_edge { g with m_scramble := false } rng).1.2 g.m_vertex_scale) ∧
    (generate_edge { g with m_scramble := true } rng).2 =
      (generate_edge { g with m_scramble := false } rng).2 ∧
    (generate_edge { g with m_scramble := false } rng).1 =
      ((levels g.m_vertex_scale (level_init g rng)).u,
       (levels g.m_vertex_scale (level_init g rng)).v) ∧
    levels g.m_vertex_scale (level_init { g with hash_nbits := h } rng) =
      levels g.m_vertex_scale (level_init g rng) ∧
    generate_edge { g with m_scramble := false, hash_nbits := h } rng =
      generate_edge { g with m_scramble := false } rng :=
  ⟨rfl, rfl, rfl, rfl, rfl⟩

end Draws

/-! ## The diagnostic `sanity_max_vertex_id` -/

section Sanity

theorem sanity_loop_stuck (itr itr_end : input_iterator_type)
    (h : is_equal itr itr_end = false) (fuel value : Nat) :
    sanity_loop fuel itr itr_end value = none := by
  induction fuel generalizing value with
  | zero => rfl
  | succ f ih => simp only [sanity_loop, h, Bool.false_eq_true, if_false, ih]

theorem sanity_max_vertex_id_stuck {α : Type} [LT α] [LE α] [∀ x y : α, Decidable (x < y)]
    [∀ x y : α, Decidable (x ≤ y)] [Add α] [Sub α] [Mul α] [Div α] [One α]
    [OfScientific α] (g : rmat_edge_generator α) (rng : Rng α)
    (hN : g.m_edge_count ≠ 0) (fuel : Nat) :
    sanity_max_vertex_id g fuel rng = none := by
  unfold sanity_max_vertex_id
  apply sanity_loop_stuck
  simp only [begin_eq, end_eq_of_pos g _ hN, is_equal, iterator_fresh]
  exact beq_false_of_ne (Ne.symm hN)

/-- C10, evaluated on a generator with `edge_count = 1`: the loop of
`sanity_max_vertex_id` has not exited after any number of evaluations of its
condition, whereas the loop that advances the iterator exits after reading the
one edge of the sequence. -/
theorem sanity_max_vertex_id_never_exits :
    (∀ fuel : Nat,
      sanity_max_vertex_id (example_generator false false 3 1) fuel example_rng = none) ∧
    ∃ (e : edge_type) (r : Rng ℚ),
      traverse (example_generator false false 3 1) 2 example_rng = some ([e], r) := by
  constructor
  · intro fuel
    exact sanity_max_vertex_id_stuck _ _ (by decide) fuel
  · exact ⟨_, _, rfl⟩

end Sanity

/-! ## Exact arithmetic -/

section Exact

variable {α : Type} [LinearOrderedField α]

theorem select_cases (a b c q : α) :
    select a b c q = select_cumulative a b c q ∧
    (select a b c q = (false, false) ↔ q < a) ∧
    (select a b c q = (false, true) ↔ a ≤ q ∧ q < a + b) ∧
    (select a b c q = (true, false) ↔ a ≤ q ∧ a + b ≤ q ∧ q < a + b + c) ∧
    (select a b c q = (true, true) ↔ a ≤ q ∧ a + b ≤ q ∧ a + b + c ≤ q) := by
  unfold select select_cumulative
  by_cases h1 : q < a
  · simp [h1, not_le.mpr h1]
  · have h1' : a ≤ q := not_lt.mp h1
    by_cases h2 : q < a + b
    · simp [h1, h1', h2, not_le.mpr h2]
    · have h2' : a + b ≤ q := not_lt.mp h2
      by_cases h3 : q < a + b + c
      · simp [h1, h1', h2, h2', h3, not_le.mpr h3]
      · simp [h1, h1', h2, h2', h3, not_lt.mp h3]

/-- C5: in a linearly ordered field, at every level with working probabilities
`a, b, c` and draw `p`, the branch `generate_edge` takes is the branch the
cumulative-threshold rule takes: nothing is added exactly when `p < a`; `step` is
added to `v` only exactly when `a <= p < a + b`; to `u` only exactly when the two
earlier tests fail and `a + b <= p < a + b + c`; to both exactly when all three
tests fail.  A draw equal to a threshold is excluded from the quadrant that the
threshold closes, and with `b` and `c` non-negative it lands in a later one. -/
theorem level_select_cumulative (s : level_state α) (a b c p : α) :
    (level s).u = (if (select_cumulative s.rmat_a s.rmat_b s.rmat_c
      (s.rng.stream s.rng.pos)).1 then (s.u + s.step) % U64 else s.u) ∧
    (level s).v = (if (select_cumulative s.rmat_a s.rmat_b s.rmat_c
      (s.rng.stream s.rng.pos)).2 then (s.v + s.step) % U64 else s.v) ∧
    select a b c p = select_cumulative a b c p ∧
    (select a b c p = (false, false) ↔ p < a) ∧
    (select a b c p = (false, true) ↔ a ≤ p ∧ p < a + b) ∧
    (select a b c p = (true, false) ↔ a ≤ p ∧ a + b ≤ p ∧ p < a + b + c) ∧
    (select a b c p = (true, true) ↔ a ≤ p ∧ a + b ≤ p ∧ a + b + c ≤ p) ∧
    select a b c a ≠ (false, false) ∧
    select a b c (a + b) ≠ (false, true) ∧
    select a b c (a + b + c) ≠ (true, false) ∧
    (0 ≤ b → (select a b c (a + b)).1 = true) ∧
    (0 ≤ b → 0 ≤ c → select a b c (a + b + c) = (true, true)) := by
  have hs := (select_cases s.rmat_a s.rmat_b s.rmat_c (s.rng.stream s.rng.pos)).1
  have key := select_cases a b c p
  refine ⟨?_, ?_, key.1, key.2.1, key.2.2.1, key.2.2.2.1, key.2.2.2.2, ?_, ?_, ?_, ?_, ?_⟩
  · rw [← hs]; rfl
  · rw [← hs]; rfl
  · exact fun h => lt_irrefl a ((select_cases a b c a).2.1.mp h)
  · exact fun h => lt_irrefl _ ((select_cases a b c (a + b)).2.2.1.mp h).2
  · exact fun h => lt_irrefl _ ((select_cases a b c (a + b + c)).2.2.2.1.mp h).2.2
  · intro hb
    have k2 := select_cases a b c (a + b)
    by_cases hc : a + b < a + b + c
    · rw [k2.2.2.2.1.mpr ⟨by linarith, le_refl _, hc⟩]
    · rw [k2.2.2.2.2.mpr ⟨by linarith, le_refl _, not_lt.mp hc⟩]
  · intro hb hc
    exact (select_cases a b c (a + b + c)).2.2.2.2.mpr
      ⟨by linarith, by linarith, le_refl _⟩

theorem scientific_constants : (0.9 : α) = 9 / 10 ∧ (0.2 : α) = 2 / 10 := by
  constructor <;> norm_num

/-- C7 as stated fails: on the first level of an example edge the code's new
probabilities differ from those obtained with three perturbation draws and the
unperturbed `d` in the normalising sum. -/
theorem level_not_three_draws :
    ((level (level_init (example_generator false false 3 1) example_rng)).rmat_a,
     (level (level_init (example_generator false false 3 1) example_rng)).rmat_b,
     (level (level_init (example_generator false false 3 1) example_rng)).rmat_c,
     (level (level_init (example_generator false false 3 1) example_rng)).rmat_d) ≠
      perturb_three_draws (57 / 100) (19 / 100) (19 / 100) (5 / 100)
        (example_rng.stream 1) (example_rng.stream 2) (example_rng.stream 3) := by
  intro h
  have ha := congrArg Prod.fst h
  norm_num [level, level_init, perturb, perturb_three_draws, example_generator,
    example_rng, Rng.draw] at ha

/-- C7 amended: one level maps the working probabilities `(a, b, c, d)` and the
four perturbation draws `(x, y, z, w)` to
`(a*fa/S, b*fb/S, c*fc/S, 1 - a*fa/S - b*fb/S - c*fc/S)` with
`fa = 0.9 + 0.2*x`, `fb = 0.9 + 0.2*y`, `fc = 0.9 + 0.2*z`, `fd = 0.9 + 0.2*w` and
`S = a*fa + b*fb + c*fc + d*fd`: the `d` in the normalising sum is the perturbed
one. -/
theorem level_four_draws (s : level_state α) (a b c d x y z w : α) :
    perturb a b c d x y z w =
      (a * (9 / 10 + 2 / 10 * x) / level_S a b c d x y z w,
       b * (9 / 10 + 2 / 10 * y) / level_S a b c d x y z w,
       c * (9 / 10 + 2 / 10 * z) / level_S a b c d x y z w,
       1 - a * (9 / 10 + 2 / 10 * x) / level_S a b c d x y z w
         - b * (9 / 10 + 2 / 10 * y) / level_S a b c d x y z w
         - c * (9 / 10 + 2 / 10 * z) / level_S a b c d x y z w) ∧
    level_S a b c d x y z w =
      a * (9 / 10 + 2 / 10 * x) + b * (9 / 10 + 2 / 10 * y) + c * (9 / 10 + 2 / 10 * z)
        + d * (9 / 10 + 2 / 10 * w) ∧
    ((level s).rmat_a, (level s).rmat_b, (level s).rmat_c, (level s).rmat_d) =
      perturb s.rmat_a s.rmat_b s.rmat_c s.rmat_d
        (s.rng.stream (s.rng.pos + 1)) (s.rng.stream (s.rng.pos + 2))
        (s.rng.stream (s.rng.pos + 3)) (s.rng.stream (s.rng.pos + 4)) := by
  have h9 : (0.9 : α) = 9 / 10 := scientific_constants.1
  have h2 : (0.2 : α) = 2 / 10 := scientific_constants.2
  refine ⟨?_, ?_, rfl⟩
  · simp only [perturb, level_S, h9, h2]
  · simp only [level_S, h9, h2]

theorem working_sum_level (s : level_state α) : working_sum (level s) = 1 := by
  simp only [working_sum, level, perturb]
  ring

/-- C8: in exact arithmetic, for any configured `a, b, c, d` and any draws for
which the normalising sum `S` of each level run so far is non-zero, the working
quadruple sums to exactly 1 at the end of every level; when the configured values
sum to 1 it sums to 1 at the start of every level as well, the first included. -/
theorem working_sum_one (g : rmat_edge_generator α) (rng : Rng α) (k : Nat)
    (hS : ∀ j, j < k → norm_sum (levels j (level_init g rng)) ≠ 0) :
    (0 < k → working_sum (levels k (level_init g rng)) = 1) ∧
    (g.m_rmat_a + g.m_rmat_b + g.m_rmat_c + g.m_rmat_d = 1 →
      working_sum (levels k (level_init g rng)) = 1) := by
  constructor
  · intro hk
    obtain ⟨n, rfl⟩ : ∃ n, k = n + 1 := ⟨k - 1, by omega⟩
    rw [levels_succ]
    exact working_sum_level _
  · intro hc
    cases k with
    | zero => exact hc
    | succ k =>
      rw [levels_succ]
      exact working_sum_level _

theorem working_sum_one_witness :
    (0 < 2 →
      working_sum (levels 2 (level_init (example_generator false false 3 1) example_rng))
        = 1) ∧
    ((example_generator false false 3 1).m_rmat_a + (example_generator false false 3 1).m_rmat_b
        + (example_generator false false 3 1).m_rmat_c
        + (example_generator false false 3 1).m_rmat_d = 1 →
      working_sum (levels 2 (level_init (example_generator false false 3 1) example_rng))
        = 1) :=
  working_sum_one (example_generator false false 3 1) example_rng 2 (by
    intro j hj
    interval_cases j <;>
      norm_num [norm_sum, level_S, levels, level, perturb, Rng.draw, level_init,
        example_generator, example_rng])

end Exact

/-! ## Empty sequences, shared random source, calls of `generate_edge` -/

section Sharing

variable {α : Type} [LT α] [LE α] [∀ x y : α, Decidable (x < y)]
  [∀ x y : α, Decidable (x ≤ y)] [Add α] [Sub α] [Mul α] [Div α] [One α]
  [OfScientific α]

/-- C11: when `edge_count` is 0, the iterator returned by `begin()` compares equal
to the one returned by `end()`, whatever the state of the random source at either
call, and the traversal exits at once having read no edge, for either value of
`m_undirected`. -/
theorem empty_sequence (g : rmat_edge_generator α) (rng rng2 : Rng α) (fuel : Nat) :
    is_equal (rmat_begin { g with m_edge_count := 0 } rng).2
        (rmat_end { g with m_edge_count := 0 } rng2).2 = true ∧
    ∃ r : Rng α, traverse { g with m_edge_count := 0 } (fuel + 1) rng = some ([], r) := by
  constructor
  · rw [begin_eq, end_eq_of_zero _ _ rfl]
    rfl
  · have hN : ({ g with m_edge_count := 0 } : rmat_edge_generator α).m_edge_count < U64 :=
      Nat.two_pow_pos 64
    have h := traverse_eq { g with m_edge_count := 0 } rng hN (fuel + 1) (by simp)
    simp only [gen_seq, twins, ite_self] at h
    exact ⟨_, h⟩

theorem gen_rng_succ (g : rmat_edge_generator α) (n : Nat) (rng : Rng α) :
    gen_rng g (n + 1) rng = (generate_edge g (gen_rng g n rng)).2 := by
  induction n generalizing rng with
  | zero => rfl
  | succ n ih =>
    have h : gen_rng g (n + 1 + 1) rng = gen_rng g (n + 1) (generate_edge g rng).2 := rfl
    rw [h, ih]
    rfl

theorem gen_rng_eq (g : rmat_edge_generator α) (n : Nat) (rng : Rng α) :
    gen_rng g n rng = { stream := rng.stream, pos := rng.pos + 5 * g.m_vertex_scale * n } := by
  induction n with
  | zero => rfl
  | succ n ih =>
    rw [gen_rng_succ, generate_edge_rng, ih]
    simp only [Rng.mk.injEq, true_and]
    rw [Nat.mul_succ]
    omega

theorem advance_n_directed (g : rmat_edge_generator α) (hd : g.m_undirected = false)
    (k : Nat) (st : Rng α × input_iterator_type) :
    (advance_n g k st).1 = gen_rng g k st.1 := by
  induction k generalizing st with
  | zero => rfl
  | succ k ih =>
    have hg := get_next_generate g st.1 st.2 (by simp [hd])
    simp only [advance_n, ih, hg, gen_rng]

theorem advance_n_undirected (g : rmat_edge_generator α) (hu : g.m_undirected = true)
    (k : Nat) (st : Rng α × input_iterator_type) :
    (advance_n g k st).1 =
      gen_rng g ((k + (if st.2.m_make_undirected then 0 else 1)) / 2) st.1 := by
  induction k generalizing st with
  | zero =>
    cases h : st.2.m_make_undirected <;> simp [advance_n, gen_rng]
  | succ k ih =>
    cases h : st.2.m_make_undirected
    · have hg := get_next_generate g st.1 st.2 (by simp [h])
      simp only [advance_n, ih, hg, Bool.false_eq_true, if_false, if_true, Nat.add_zero]
      have : (k + 1 + 1) / 2 = k / 2 + 1 := by omega
      rw [this]
      rfl
    · have hs := get_next_swap g st.1 st.2 (by simp [hu, h])
      simp only [advance_n, ih, hs, Bool.false_eq_true, if_false, if_true, Nat.add_zero]

theorem advance_n_begin (g : rmat_edge_generator α) (k : Nat) (rng : Rng α) :
    (advance_n g k (rmat_begin g rng)).1 =
      gen_rng g (1 + (if g.m_undirected then k / 2 else k)) rng := by
  cases hu : g.m_undirected
  · rw [advance_n_directed g hu, begin_eq]
    simp only [Bool.false_eq_true, if_false]
    rw [Nat.add_comm 1 k]
    rfl
  · rw [advance_n_undirected g hu, begin_eq]
    simp only [if_true, Nat.add_zero]
    rw [Nat.add_comm 1 (k / 2)]
    rfl

/-- C12: `begin()` synthesizes its first edge from the random source as it is at
the call.  After `begin()` and `k` advances the source has been moved by
`1 + k` calls of `generate_edge` (`1 + k / 2` when `m_undirected` is set), and a
further `begin()` returns the edge `generate_edge` yields on that advanced source.
Two iterators advanced one after the other, neither on a twin step, receive two
consecutive edges of the one stream.  On an example the second `begin()` returns
an edge other than the first one. -/
theorem begin_does_not_rewind (g : rmat_edge_generator α) (rng r : Rng α) (k : Nat)
    (itA itB : input_iterator_type) :
    rmat_begin g r =
      ((generate_edge g r).2,
        { m_count := 0, m_current := (generate_edge g r).1, m_make_undirected := true }) ∧
    (advance_n g k (rmat_begin g rng)).1 =
      gen_rng g (1 + (if g.m_undirected then k / 2 else k)) rng ∧
    (advance_n g k (rmat_begin g rng)).1.stream = rng.stream ∧
    (advance_n g k (rmat_begin g rng)).1.pos =
      rng.pos + 5 * g.m_vertex_scale * (1 + (if g.m_undirected then k / 2 else k)) ∧
    (rmat_begin g (advance_n g k (rmat_begin g rng)).1).2.m_current =
      (generate_edge g (gen_rng g (1 + (if g.m_undirected then k / 2 else k)) rng)).1 ∧
    ((g.m_undirected && itA.m_make_undirected) = false →
      (g.m_undirected && itB.m_make_undirected) = false →
      [(get_next g r itA).2.m_current, (get_next g (get_next g r itA).1 itB).2.m_current]
          = gen_seq g 2 r ∧
        (get_next g (get_next g r itA).1 itB).1 = gen_rng g 2 r) ∧
    (rmat_begin (example_generator false false 1 5)
        (advance_n (example_generator false false 1 5) 1
          (rmat_begin (example_generator false false 1 5) example_rng)).1).2.m_current ≠
      (rmat_begin (example_generator false false 1 5) example_rng).2.m_current := by
  refine ⟨begin_eq g r, advance_n_begin g k rng, ?_, ?_, ?_, ?_, ?_⟩
  · rw [advance_n_begin, gen_rng_eq]
  · rw [advance_n_begin, gen_rng_eq]
  · rw [advance_n_begin, begin_eq]
  · intro hA hB
    rw [get_next_generate g r itA hA, get_next_generate g _ itB hB]
    exact ⟨rfl, rfl⟩
  · norm_num [rmat_begin, iterator_ctor, get_next, generate_edge, levels, level, select,
      level_init, example_generator, example_rng, advance_n, Rng.draw, iterator_fresh, U64]
    decide

/-- C15, evaluated on a generator with `edge_count = 3`: `begin()` and `begin()`
advanced once have both not reached `end()`, yet `operator==` returns false on
them and `operator!=` returns true; `operator==` is equality of `m_count`. -/
theorem is_equal_compares_counts :
    is_equal (rmat_begin (example_generator false false 3 3) example_rng).2
        (rmat_end (example_generator false false 3 3) example_rng).2 = false ∧
    is_equal (advance_n (example_generator false false 3 3) 1
          (rmat_begin (example_generator false false 3 3) example_rng)).2
        (rmat_end (example_generator false false 3 3) example_rng).2 = false ∧
    is_equal (rmat_begin (example_generator false false 3 3) example_rng).2
        (advance_n (example_generator false false 3 3) 1
          (rmat_begin (example_generator false false 3 3) example_rng)).2 = false ∧
    (!is_equal (rmat_begin (example_generator false false 3 3) example_rng).2
        (advance_n (example_generator false false 3 3) 1
          (rmat_begin (example_generator false false 3 3) example_rng)).2) = true ∧
    ∀ x y : input_iterator_type, is_equal x y = true ↔ x.m_count = y.m_count := by
  refine ⟨by decide, by decide, by decide, by decide, ?_⟩
  intro x y
  simp [is_equal]

theorem walk_calls_directed (g : rmat_edge_generator α) (hd : g.m_undirected = false)
    (itr_end : input_iterator_type) (hN : itr_end.m_count < U64) (n : Nat) :
    ∀ (fuel : Nat) (rng : Rng α) (itr : input_iterator_type),
      itr.m_count + n = itr_end.m_count → n < fuel →
      walk_calls g fuel rng itr itr_end = some n := by
  induction n with
  | zero =>
    intro fuel rng itr hc hf
    obtain ⟨f, rfl⟩ : ∃ f, fuel = f + 1 := ⟨fuel - 1, by omega⟩
    have he : is_equal itr itr_end = true := by simp [is_equal]; omega
    simp [walk_calls, he]
  | succ n ih =>
    intro fuel rng itr hc hf
    obtain ⟨f, rfl⟩ : ∃ f, fuel = f + 1 := ⟨fuel - 1, by omega⟩
    have he : is_equal itr itr_end = false := by simp [is_equal]; omega
    have hg := get_next_generate g rng itr (by simp [hd])
    have hm : (itr.m_count + 1) % U64 = itr.m_count + 1 := Nat.mod_eq_of_lt (by omega)
    rw [hm] at hg
    have hrec := ih f (generate_edge g rng).2
      { m_count := itr.m_count + 1
        m_current := (generate_edge g rng).1
        m_make_undirected := true } (by simp only; omega) (by omega)
    simp only [walk_calls, he, hg, hrec, get_next_calls, hd, Bool.false_and,
      Bool.false_eq_true, if_false]
    rw [Nat.add_comm]

theorem walk_calls_undirected (g : rmat_edge_generator α) (hu : g.m_undirected = true)
    (itr_end : input_iterator_type) (hN : itr_end.m_count < U64) (n : Nat) :
    ∀ (fuel : Nat) (rng : Rng α) (itr : input_iterator_type),
      itr.m_make_undirected = true →
      itr.m_count + n = itr_end.m_count → 2 * n < fuel →
      walk_calls g fuel rng itr itr_end = some n := by
  induction n with
  | zero =>
    intro fuel rng itr _ hc hf
    obtain ⟨f, rfl⟩ : ∃ f, fuel = f + 1 := ⟨fuel - 1, by omega⟩
    have he : is_equal itr itr_end = true := by simp [is_equal]; omega
    simp [walk_calls, he]
  | succ n ih =>
    intro fuel rng itr hmu hc hf
    obtain ⟨f, rfl⟩ : ∃ f, fuel = f + 1 + 1 := ⟨fuel - 2, by omega⟩
    have he : is_equal itr itr_end = false := by simp [is_equal]; omega
    have hs := get_next_swap g rng itr (by simp [hu, hmu])
    have he2 : is_equal
        { m_count := itr.m_count
          m_current := (itr.m_current.2, itr.m_current.1)
          m_make_undirected := false } itr_end = false := by simp [is_equal]; omega
    have hg := get_next_generate g rng
        { m_count := itr.m_count
          m_current := (itr.m_current.2, itr.m_current.1)
          m_make_undirected := false } (by simp)
    have hm : (itr.m_count + 1) % U64 = itr.m_count + 1 := Nat.mod_eq_of_lt (by omega)
    simp only [hm] at hg
    have hrec := ih f (generate_edge g rng).2
      { m_count := itr.m_count + 1
        m_current := (generate_edge g rng).1
        m_make_undirected := true } rfl (by simp only; omega) (by omega)
    simp only [walk_calls, he, hs, he2, hg, hrec, get_next_calls, hu, hmu, Bool.and_self,
      Bool.and_false, Bool.false_eq_true, if_false, if_true]
    rw [Nat.zero_add, Nat.add_comm]

theorem traverse_calls_eq (g : rmat_edge_generator α) (rng : Rng α)
    (hN : g.m_edge_count < U64) (fuel : Nat)
    (hf : (if g.m_undirected then 2 * g.m_edge_count else g.m_edge_count) < fuel) :
    traverse_calls g fuel rng =
      some (if g.m_edge_count = 0 then 2 else g.m_edge_count + 1) := by
  have hb : iterator_ctor_calls g 0 = 1 := by
    simp [iterator_ctor_calls, get_next_calls, iterator_fresh]
  by_cases h0 : g.m_edge_count = 0
  · obtain ⟨f, rfl⟩ : ∃ f, fuel = f + 1 := ⟨fuel - 1, by omega⟩
    simp only [traverse_calls, begin_eq, end_eq_of_zero g _ h0, walk_calls, is_equal,
      beq_self_eq_true, if_true, h0, hb]
  · have he : iterator_ctor_calls g g.m_edge_count = 0 := by
      simp [iterator_ctor_calls, h0]
    simp only [traverse_calls, begin_eq, end_eq_of_pos g _ h0, h0, if_false, hb, he]
    cases hu : g.m_undirected
    · simp only [hu, Bool.false_eq_true, if_false] at hf
      rw [walk_calls_directed g hu (iterator_fresh g.m_edge_count)
        (by simpa [iterator_fresh] using hN) g.m_edge_count fuel _ _
        (by simp [iterator_fresh]) hf]
      simp only [Option.some.injEq]
      omega
    · simp only [hu, if_true] at hf
      rw [walk_calls_undirected g hu (iterator_fresh g.m_edge_count)
        (by simpa [iterator_fresh] using hN) g.m_edge_count fuel _ _ rfl
        (by simp [iterator_fresh]) hf]
      simp only [Option.some.injEq]
      omega

/-- C17: a traversal of a sequence of `N >= 1` edges calls `generate_edge` exactly
`N + 1` times, once in `begin()`, none in `end()` and `N` times in the loop, while
it reads the first `N` synthesized edges only (each with its twin when
`m_undirected` is set); the random source is left where `N + 1` calls of
`generate_edge` put it.  For `N = 0` there are two calls, one in `begin()` and one
in `end()`, and no edge is read. -/
theorem traverse_synthesizes_one_more (g : rmat_edge_generator α) (rng : Rng α)
    (fuel : Nat) (hN : g.m_edge_count < U64)
    (hf : (if g.m_undirected then 2 * g.m_edge_count else g.m_edge_count) < fuel) :
    traverse_calls g fuel rng =
      some (if g.m_edge_count = 0 then 2 else g.m_edge_count + 1) ∧
    iterator_ctor_calls g 0 = 1 ∧
    iterator_ctor_calls g g.m_edge_count = (if g.m_edge_count = 0 then 1 else 0) ∧
    traverse g fuel rng =
      some (if g.m_undirected then twins (gen_seq g g.m_edge_count rng)
              else gen_seq g g.m_edge_count rng,
            gen_rng g (if g.m_edge_count = 0 then 2 else g.m_edge_count + 1) rng) ∧
    (gen_seq g g.m_edge_count rng).length = g.m_edge_count ∧
    (gen_rng g (if g.m_edge_count = 0 then 2 else g.m_edge_count + 1) rng).pos =
      rng.pos + 5 * g.m_vertex_scale * (if g.m_edge_count = 0 then 2 else g.m_edge_count + 1) := by
  refine ⟨traverse_calls_eq g rng hN fuel hf, ?_, ?_, traverse_eq g rng hN fuel hf,
    gen_seq_length g _ rng, ?_⟩
  · simp [iterator_ctor_calls, get_next_calls, iterator_fresh]
  · by_cases h0 : g.m_edge_count = 0
    · simp [iterator_ctor_calls, get_next_calls, iterator_fresh, h0]
    · simp [iterator_ctor_calls, h0]
  · rw [gen_rng_eq]

theorem traverse_synthesizes_one_more_witness :
    traverse_calls (example_generator false true 3 2) 5 example_rng =
      some (if (example_generator false true 3 2).m_edge_count = 0 then 2
        else (example_generator false true 3 2).m_edge_count + 1) ∧
    iterator_ctor_calls (example_generator false true 3 2) 0 = 1 ∧
    iterator_ctor_calls (example_generator false true 3 2)
        (example_generator false true 3 2).m_edge_count =
      (if (example_generator false true 3 2).m_edge_count = 0 then 1 else 0) ∧
    traverse (example_generator false true 3 2) 5 example_rng =
      some (if (example_generator false true 3 2).m_undirected
              then twins (gen_seq (example_generator false true 3 2)
                (example_generator false true 3 2).m_edge_count example_rng)
              else gen_seq (example_generator false true 3 2)
                (example_generator false true 3 2).m_edge_count example_rng,
            gen_rng (example_generator false true 3 2)
              (if (example_generator false true 3 2).m_edge_count = 0 then 2
                else (example_generator false true 3 2).m_edge_count + 1) example_rng) ∧
    (gen_seq (example_generator false true 3 2)
        (example_generator false true 3 2).m_edge_count example_rng).length =
      (example_generator false true 3 2).m_edge_count ∧
    (gen_rng (example_generator false true 3 2)
        (if (example_generator false true 3 2).m_edge_count = 0 then 2
          else (example_generator false true 3 2).m_edge_count + 1) example_rng).pos =
      example_rng.pos + 5 * (example_generator false true 3 2).m_vertex_scale *
        (if (example_generator false true 3 2).m_edge_count = 0 then 2
          else (example_generator false true 3 2).m_edge_count + 1) :=
  traverse_synthesizes_one_more (example_generator false true 3 2) example_rng 5
    (by decide) (by decide)

/-- C19: when `edge_count` is 0 and `m_vertex_scale < 64`, the loop of
`sanity_max_vertex_id` exits at its first test with `value = 0`, and the final
assertion `max_vertex_id() == value` holds exactly when `m_vertex_scale` is 0; for
`m_vertex_scale >= 1` it fails, although the observed value is within the bound. -/
theorem sanity_empty_assert (g : rmat_edge_generator α) (rng : Rng α) (fuel : Nat)
    (hvs : g.m_vertex_scale < 64) :
    sanity_max_vertex_id { g with m_edge_count := 0 } (fuel + 1) rng = some 0 ∧
    (sanity_assert { g with m_edge_count := 0 } (fuel + 1) rng = some true ↔
      g.m_vertex_scale = 0) ∧
    (0 < g.m_vertex_scale →
      sanity_assert { g with m_edge_count := 0 } (fuel + 1) rng = some false) ∧
    0 ≤ max_vertex_id { g with m_edge_count := 0 } ∧
    max_vertex_id { g with m_edge_count := 0 } = 2 ^ g.m_vertex_scale - 1 := by
  have hv : sanity_max_vertex_id { g with m_edge_count := 0 } (fuel + 1) rng = some 0 := by
    have he := fun r : Rng α => end_eq_of_zero { g with m_edge_count := 0 } r rfl
    simp only [sanity_max_vertex_id, begin_eq, he, sanity_loop, is_equal,
      beq_self_eq_true, if_true]
  have hm : max_vertex_id { g with m_edge_count := 0 } = 2 ^ g.m_vertex_scale - 1 :=
    max_vertex_id_eq { g with m_edge_count := 0 } hvs
  have hpow : 2 ^ g.m_vertex_scale - 1 = 0 ↔ g.m_vertex_scale = 0 := by
    constructor
    · intro h
      by_contra hne
      have h2 : 2 ^ 1 ≤ 2 ^ g.m_vertex_scale :=
        Nat.pow_le_pow_right (by decide) (Nat.pos_of_ne_zero hne)
      omega
    · intro h
      rw [h]
      rfl
  refine ⟨hv, ?_, ?_, Nat.zero_le _, hm⟩
  · simp only [sanity_assert, hv, hm, Option.some.injEq, beq_iff_eq]
    exact hpow
  · intro hpos
    simp only [sanity_assert, hv, hm, Option.some.injEq, beq_eq_false_iff_ne, ne_eq]
    intro h
    have := hpow.mp h
    omega

theorem sanity_empty_assert_witness :
    sanity_max_vertex_id { example_generator false false 3 4 with m_edge_count := 0 } (0 + 1)
        example_rng = some 0 ∧
    (sanity_assert { example_generator false false 3 4 with m_edge_count := 0 } (0 + 1)
        example_rng = some true ↔ (example_generator false false 3 4).m_vertex_scale = 0) ∧
    (0 < (example_generator false false 3 4).m_vertex_scale →
      sanity_assert { example_generator false false 3 4 with m_edge_count := 0 } (0 + 1)
        example_rng = some false) ∧
    0 ≤ max_vertex_id { example_generator false false 3 4 with m_edge_count := 0 } ∧
    max_vertex_id { example_generator false false 3 4 with m_edge_count := 0 } =
      2 ^ (example_generator false false 3 4).m_vertex_scale - 1 :=
  sanity_empty_assert (example_generator false false 3 4) example_rng 0 (by decide)

end Sharing

/-! ## Determinism and the binary expansion of the ids -/

section Determinism

variable {α : Type} [LT α] [LE α] [∀ x y : α, Decidable (x < y)]
  [∀ x y : α, Decidable (x ≤ y)] [Add α] [Sub α] [Mul α] [Div α] [One α]
  [OfScientific α]

theorem level_same_samples (s : level_state α) (r2 : Rng α)
    (h : same_samples s.rng r2) :
    level { s with rng := r2 } =
        { level s with rng := { stream := r2.stream, pos := r2.pos + 5 } } ∧
      same_samples (level s).rng { stream := r2.stream, pos := r2.pos + 5 } := by
  have h0 := h 0
  have h1 := h 1
  have h2 := h 2
  have h3 := h 3
  have h4 := h 4
  simp only [Nat.add_zero] at h0
  constructor
  · simp only [level, Rng.draw, ← h0, ← h1, ← h2, ← h3, ← h4]
  · intro i
    have hi := h (5 + i)
    simp only [level_rng]
    rw [Nat.add_assoc, Nat.add_assoc]
    exact hi

theorem levels_same_samples (n : Nat) (s : level_state α) (r2 : Rng α)
    (h : same_samples s.rng r2) :
    levels n { s with rng := r2 } =
        { levels n s with rng := { stream := r2.stream, pos := r2.pos + 5 * n } } ∧
      same_samples (levels n s).rng { stream := r2.stream, pos := r2.pos + 5 * n } := by
  induction n generalizing s r2 with
  | zero => exact ⟨rfl, h⟩
  | succ n ih =>
    have hl := level_same_samples s r2 h
    have hr := ih (level s) { stream := r2.stream, pos := r2.pos + 5 } hl.2
    have e : r2.pos + 5 + 5 * n = r2.pos + 5 * (n + 1) := by omega
    simp only [e] at hr
    constructor
    · have hstep : levels (n + 1) { s with rng := r2 } = levels n (level { s with rng := r2 }) :=
        rfl
      rw [hstep, hl.1]
      exact hr.1
    · exact hr.2

theorem generate_edge_same_samples (g : rmat_edge_generator α) (r1 r2 : Rng α)
    (h : same_samples r1 r2) :
    (generate_edge g r2).1 = (generate_edge g r1).1 ∧
      same_samples (generate_edge g r1).2 (generate_edge g r2).2 := by
  have hl := levels_same_samples g.m_vertex_scale (level_init g r1) r2 h
  have e : level_init g r2 = { level_init g r1 with rng := r2 } := rfl
  simp only [generate_edge, e, hl.1]
  exact ⟨trivial, hl.2⟩

theorem gen_seq_same_samples (g : rmat_edge_generator α) (n : Nat) (r1 r2 : Rng α)
    (h : same_samples r1 r2) :
    gen_seq g n r2 = gen_seq g n r1 ∧ same_samples (gen_rng g n r1) (gen_rng g n r2) := by
  induction n generalizing r1 r2 with
  | zero => exact ⟨rfl, h⟩
  | succ n ih =>
    have hg := generate_edge_same_samples g r1 r2 h
    have hr := ih (generate_edge g r1).2 (generate_edge g r2).2 hg.2
    simp only [gen_seq, gen_rng, hg.1, hr.1]
    exact ⟨trivial, hr.2⟩

/-- C13: two generators with the same configuration whose random sources deliver
the same samples produce, each with any sufficient bound on its loop, the same
sequence of edges from `begin()` to `end()`, and their random sources deliver the
same samples afterwards: the sequence depends on the configuration and on the
samples only. -/
theorem traverse_deterministic (g : rmat_edge_generator α) (r1 r2 : Rng α)
    (fuel1 fuel2 : Nat) (hN : g.m_edge_count < U64)
    (hf1 : (if g.m_undirected then 2 * g.m_edge_count else g.m_edge_count) < fuel1)
    (hf2 : (if g.m_undirected then 2 * g.m_edge_count else g.m_edge_count) < fuel2)
    (hs : same_samples r1 r2) :
    ∃ (es : List edge_type) (q1 q2 : Rng α),
      traverse g fuel1 r1 = some (es, q1) ∧ traverse g fuel2 r2 = some (es, q2) ∧
      same_samples q1 q2 ∧
      es = (if g.m_undirected then twins (gen_seq g g.m_edge_count r1)
              else gen_seq g g.m_edge_count r1) := by
  have h1 := traverse_eq g r1 hN fuel1 hf1
  have h2 := traverse_eq g r2 hN fuel2 hf2
  rw [(gen_seq_same_samples g g.m_edge_count r1 r2 hs).1] at h2
  exact ⟨_, _, _, h1, h2, (gen_seq_same_samples g _ r1 r2 hs).2, rfl⟩

theorem traverse_deterministic_witness :
    ∃ (es : List edge_type) (q1 q2 : Rng ℚ),
      traverse (example_generator false true 3 2) 5 example_rng = some (es, q1) ∧
      traverse (example_generator false true 3 2) 9 example_rng_shifted = some (es, q2) ∧
      same_samples q1 q2 ∧
      es = (if (example_generator false true 3 2).m_undirected
              then twins (gen_seq (example_generator false true 3 2)
                (example_generator false true 3 2).m_edge_count example_rng)
              else gen_seq (example_generator false true 3 2)
                (example_generator false true 3 2).m_edge_count example_rng) :=
  traverse_deterministic (example_generator false true 3 2) example_rng example_rng_shifted
    5 9 (by decide) (by decide) (by decide)
    (by intro i; simp [example_rng, example_rng_shifted])

theorem levels_bound_step {B : Nat} (n : Nat) (s : level_state α)
    (hu : s.u < B ∧ s.u + 2 * s.step ≤ B) (hv : s.v < B ∧ s.v + 2 * s.step ≤ B) :
    ((levels n s).u < B ∧ (levels n s).u + 2 * (levels n s).step ≤ B) ∧
      ((levels n s).v < B ∧ (levels n s).v + 2 * (levels n s).step ≤ B) := by
  induction n generalizing s with
  | zero => exact ⟨hu, hv⟩
  | succ n ih =>
    have h := level_bound s hu hv
    exact ih (level s) h.1 h.2

theorem levels_step (n : Nat) (s : level_state α) :
    (levels n s).step = s.step / 2 ^ n := by
  induction n with
  | zero => simp [levels]
  | succ n ih =>
    rw [levels_succ]
    have h : (level (levels n s)).step = (levels n s).step / 2 := rfl
    rw [h, ih, Nat.div_div_eq_div_mul, Nat.pow_succ]

theorem levels_init_step (g : rmat_edge_generator α) (rng : Rng α)
    (hvs : g.m_vertex_scale < 64) (k : Nat) (hk : k < g.m_vertex_scale) :
    (levels k (level_init g rng)).step = 2 ^ (g.m_vertex_scale - 1 - k) := by
  rw [levels_step]
  have h0 : (level_init g rng).step = 2 ^ g.m_vertex_scale / 2 := by
    simp only [level_init, shift_lt_U64 hvs]
  rw [h0, Nat.div_div_eq_div_mul]
  have e : 2 * 2 ^ k = 2 ^ (k + 1) := by rw [Nat.pow_succ, Nat.mul_comm]
  rw [e, Nat.pow_div (by omega) (by decide)]
  congr 1
  omega

theorem levels_init_sum (g : rmat_edge_generator α) (rng : Rng α)
    (hvs : g.m_vertex_scale < 64) (k : Nat) (hk : k ≤ g.m_vertex_scale) :
    (levels k (level_init g rng)).u =
        Finset.sum (Finset.range k) (fun j =>
          if (level_choice (levels j (level_init g rng))).1
            then 2 ^ (g.m_vertex_scale - 1 - j) else 0) ∧
      (levels k (level_init g rng)).v =
        Finset.sum (Finset.range k) (fun j =>
          if (level_choice (levels j (level_init g rng))).2
            then 2 ^ (g.m_vertex_scale - 1 - j) else 0) := by
  have hp : 0 < 2 ^ g.m_vertex_scale := Nat.two_pow_pos _
  have hlt : 2 ^ g.m_vertex_scale < U64 := Nat.pow_lt_pow_right (by decide) hvs
  have hstep0 : 2 * ((1 <<< g.m_vertex_scale) % U64 / 2) ≤ 2 ^ g.m_vertex_scale := by
    rw [shift_lt_U64 hvs]
    exact Nat.mul_div_le _ 2
  have hb0 : (level_init g rng).u < 2 ^ g.m_vertex_scale ∧
      (level_init g rng).u + 2 * (level_init g rng).step ≤ 2 ^ g.m_vertex_scale := by
    simp only [level_init, Nat.zero_add]
    exact ⟨hp, hstep0⟩
  have hb1 : (level_init g rng).v < 2 ^ g.m_vertex_scale ∧
      (level_init g rng).v + 2 * (level_init g rng).step ≤ 2 ^ g.m_vertex_scale := by
    simp only [level_init, Nat.zero_add]
    exact ⟨hp, hstep0⟩
  induction k with
  | zero => exact ⟨rfl, rfl⟩
  | succ k ih =>
    have ihk := ih (by omega)
    have hb := levels_bound_step k (level_init g rng) hb0 hb1
    have hs := levels_init_step g rng hvs k (by omega)
    have hu : (levels (k + 1) (level_init g rng)).u =
        (if (level_choice (levels k (level_init g rng))).1
          then ((levels k (level_init g rng)).u + (levels k (level_init g rng)).step) % U64
          else (levels k (level_init g rng)).u) := by
      rw [levels_succ]; rfl
    have hv : (levels (k + 1) (level_init g rng)).v =
        (if (level_choice (levels k (level_init g rng))).2
          then ((levels k (level_init g rng)).v + (levels k (level_init g rng)).step) % U64
          else (levels k (level_init g rng)).v) := by
      rw [levels_succ]; rfl
    have hmu : ((levels k (level_init g rng)).u + (levels k (level_init g rng)).step) % U64 =
        (levels k (level_init g rng)).u + (levels k (level_init g rng)).step :=
      Nat.mod_eq_of_lt (by omega)
    have hmv : ((levels k (level_init g rng)).v + (levels k (level_init g rng)).step) % U64 =
        (levels k (level_init g rng)).v + (levels k (level_init g rng)).step :=
      Nat.mod_eq_of_lt (by omega)
    rw [hu, hv, hmu, hmv, Finset.sum_range_succ, Finset.sum_range_succ, ← ihk.1, ← ihk.2, hs]
    constructor
    · split <;> simp
    · split <;> simp

/-- C14: with `m_scramble` unset and `m_vertex_scale = n < 64`, `generate_edge`
returns `u` equal to the sum over the levels `j < n` of `2 ^ (n - 1 - j)` for the
levels that chose quadrant 10 or 11, and `v` equal to the same sum for the levels
that chose quadrant 01 or 11; for `n = 0` the edge is `(0, 0)`. -/
theorem generate_edge_bits (g : rmat_edge_generator α) (rng : Rng α)
    (hvs : g.m_vertex_scale < 64) :
    (generate_edge { g with m_scramble := false } rng).1 =
      (Finset.sum (Finset.range g.m_vertex_scale) (fun j =>
          if (level_choice (levels j (level_init g rng))).1
            then 2 ^ (g.m_vertex_scale - 1 - j) else 0),
       Finset.sum (Finset.range g.m_vertex_scale) (fun j =>
          if (level_choice (levels j (level_init g rng))).2
            then 2 ^ (g.m_vertex_scale - 1 - j) else 0)) ∧
    (generate_edge { g with m_scramble := false, m_vertex_scale := 0 } rng).1 = (0, 0) := by
  have h := levels_init_sum g rng hvs g.m_vertex_scale (Nat.le_refl _)
  constructor
  · have e : (generate_edge { g with m_scramble := false } rng).1 =
        ((levels g.m_vertex_scale (level_init g rng)).u,
         (levels g.m_vertex_scale (level_init g rng)).v) := rfl
    rw [e, h.1, h.2]
  · rfl

theorem generate_edge_bits_witness :
    (generate_edge { example_generator true false 3 2 with m_scramble := false }
        example_rng).1 =
      (Finset.sum (Finset.range (example_generator true false 3 2).m_vertex_scale) (fun j =>
          if (level_choice (levels j
              (level_init (example_generator true false 3 2) example_rng))).1
            then 2 ^ ((example_generator true false 3 2).m_vertex_scale - 1 - j) else 0),
       Finset.sum (Finset.range (example_generator true false 3 2).m_vertex_scale) (fun j =>
          if (level_choice (levels j
              (level_init (example_generator true false 3 2) example_rng))).2
            then 2 ^ ((example_generator true false 3 2).m_vertex_scale - 1 - j) else 0)) ∧
    (generate_edge { example_generator true false 3 2 with
        m_scramble := false, m_vertex_scale := 0 } example_rng).1 = (0, 0) :=
  generate_edge_bits (example_generator true false 3 2) example_rng (by decide)

end Determinism

/-! ## Size of the perturbation, positivity of the working probabilities -/

section Perturbation

variable {α : Type} [LinearOrderedField α]

theorem level_values (s : level_state α) :
    (level s).rmat_a =
        s.rmat_a * (9 / 10 + 2 / 10 * s.rng.stream (s.rng.pos + 1)) / norm_sum s ∧
    (level s).rmat_b =
        s.rmat_b * (9 / 10 + 2 / 10 * s.rng.stream (s.rng.pos + 2)) / norm_sum s ∧
    (level s).rmat_c =
        s.rmat_c * (9 / 10 + 2 / 10 * s.rng.stream (s.rng.pos + 3)) / norm_sum s ∧
    (level s).rmat_d = 1 - (level s).rmat_a - (level s).rmat_b - (level s).rmat_c ∧
    norm_sum s =
      s.rmat_a * (9 / 10 + 2 / 10 * s.rng.stream (s.rng.pos + 1)) +
      s.rmat_b * (9 / 10 + 2 / 10 * s.rng.stream (s.rng.pos + 2)) +
      s.rmat_c * (9 / 10 + 2 / 10 * s.rng.stream (s.rng.pos + 3)) +
      s.rmat_d * (9 / 10 + 2 / 10 * s.rng.stream (s.rng.pos + 4)) := by
  have h9 : (0.9 : α) = 9 / 10 := scientific_constants.1
  have h2 : (0.2 : α) = 2 / 10 := scientific_constants.2
  refine ⟨?_, ?_, ?_, rfl, ?_⟩ <;>
    simp only [level, perturb, norm_sum, level_S, Rng.draw, h9, h2]

theorem ratio_bounds (p f S : α) (hp : 0 < p) (hf1 : 9 / 10 ≤ f) (hf2 : f < 11 / 10)
    (hS1 : 9 / 10 ≤ S) (hS2 : S < 11 / 10) :
    0 < p * f / S ∧ 9 / 11 * p < p * f / S ∧ p * f / S < 11 / 9 * p := by
  have hS : 0 < S := by linarith
  have hf : 0 < f := by linarith
  refine ⟨div_pos (mul_pos hp hf) hS, ?_, ?_⟩
  · rw [lt_div_iff₀ hS]
    nlinarith [mul_pos hp hS, mul_pos hp hf]
  · rw [div_lt_iff₀ hS]
    nlinarith [mul_pos hp hS, mul_pos hp hf]

theorem factor_bounds (x : α) (h0 : 0 ≤ x) (h1 : x < 1) :
    (9 / 10 : α) ≤ 9 / 10 + 2 / 10 * x ∧ 9 / 10 + 2 / 10 * x < 11 / 10 := by
  constructor <;> linarith

theorem norm_sum_bounds (a b c d x y z w : α) (ha : 0 < a) (hb : 0 < b) (hc : 0 < c)
    (hd : 0 < d) (hsum : a + b + c + d = 1)
    (hx : 0 ≤ x ∧ x < 1) (hy : 0 ≤ y ∧ y < 1) (hz : 0 ≤ z ∧ z < 1) (hw : 0 ≤ w ∧ w < 1) :
    9 / 10 ≤ a * (9 / 10 + 2 / 10 * x) + b * (9 / 10 + 2 / 10 * y)
        + c * (9 / 10 + 2 / 10 * z) + d * (9 / 10 + 2 / 10 * w) ∧
      a * (9 / 10 + 2 / 10 * x) + b * (9 / 10 + 2 / 10 * y)
        + c * (9 / 10 + 2 / 10 * z) + d * (9 / 10 + 2 / 10 * w) < 11 / 10 := by
  have h1 : 0 ≤ a * x := mul_nonneg ha.le hx.1
  have h2 : 0 ≤ b * y := mul_nonneg hb.le hy.1
  have h3 : 0 ≤ c * z := mul_nonneg hc.le hz.1
  have h4 : 0 ≤ d * w := mul_nonneg hd.le hw.1
  have k1 : a * x < a := mul_lt_of_lt_one_right ha hx.2
  have k2 : b * y < b := mul_lt_of_lt_one_right hb hy.2
  have k3 : c * z < c := mul_lt_of_lt_one_right hc hz.2
  have k4 : d * w < d := mul_lt_of_lt_one_right hd hw.2
  constructor <;> linarith

theorem level_estimates (s : level_state α)
    (ha : 0 < s.rmat_a) (hb : 0 < s.rmat_b) (hc : 0 < s.rmat_c) (hd : 0 < s.rmat_d)
    (hsum : working_sum s = 1)
    (hx : 0 ≤ s.rng.stream (s.rng.pos + 1) ∧ s.rng.stream (s.rng.pos + 1) < 1)
    (hy : 0 ≤ s.rng.stream (s.rng.pos + 2) ∧ s.rng.stream (s.rng.pos + 2) < 1)
    (hz : 0 ≤ s.rng.stream (s.rng.pos + 3) ∧ s.rng.stream (s.rng.pos + 3) < 1)
    (hw : 0 ≤ s.rng.stream (s.rng.pos + 4) ∧ s.rng.stream (s.rng.pos + 4) < 1) :
    (9 / 10 ≤ norm_sum s ∧ norm_sum s < 11 / 10) ∧
    (0 < (level s).rmat_a ∧ 9 / 11 * s.rmat_a < (level s).rmat_a ∧
      (level s).rmat_a < 11 / 9 * s.rmat_a) ∧
    (0 < (level s).rmat_b ∧ 9 / 11 * s.rmat_b < (level s).rmat_b ∧
      (level s).rmat_b < 11 / 9 * s.rmat_b) ∧
    (0 < (level s).rmat_c ∧ 9 / 11 * s.rmat_c < (level s).rmat_c ∧
      (level s).rmat_c < 11 / 9 * s.rmat_c) ∧
    (0 < (level s).rmat_d ∧ 9 / 11 * s.rmat_d < (level s).rmat_d ∧
      (level s).rmat_d < 11 / 9 * s.rmat_d) := by
  obtain ⟨ea, eb, ec, ed, eS⟩ := level_values s
  have hS : 9 / 10 ≤ norm_sum s ∧ norm_sum s < 11 / 10 := by
    rw [eS]
    exact norm_sum_bounds _ _ _ _ _ _ _ _ ha hb hc hd hsum hx hy hz hw
  have hS0 : norm_sum s ≠ 0 := by
    have : 0 < norm_sum s := by linarith [hS.1]
    exact ne_of_gt this
  have ed2 : (level s).rmat_d =
      s.rmat_d * (9 / 10 + 2 / 10 * s.rng.stream (s.rng.pos + 4)) / norm_sum s := by
    rw [ed, ea, eb, ec]
    rw [eq_div_iff hS0]
    have : (1 - s.rmat_a * (9 / 10 + 2 / 10 * s.rng.stream (s.rng.pos + 1)) / norm_sum s
        - s.rmat_b * (9 / 10 + 2 / 10 * s.rng.stream (s.rng.pos + 2)) / norm_sum s
        - s.rmat_c * (9 / 10 + 2 / 10 * s.rng.stream (s.rng.pos + 3)) / norm_sum s)
          * norm_sum s
        = norm_sum s - s.rmat_a * (9 / 10 + 2 / 10 * s.rng.stream (s.rng.pos + 1))
          - s.rmat_b * (9 / 10 + 2 / 10 * s.rng.stream (s.rng.pos + 2))
          - s.rmat_c * (9 / 10 + 2 / 10 * s.rng.stream (s.rng.pos + 3)) := by
      field_simp
      ring
    rw [this]
    nth_rewrite 1 [eS]
    ring
  refine ⟨hS, ?_, ?_, ?_, ?_⟩
  · rw [ea]
    exact ratio_bounds _ _ _ ha (factor_bounds _ hx.1 hx.2).1 (factor_bounds _ hx.1 hx.2).2
      hS.1 hS.2
  · rw [eb]
    exact ratio_bounds _ _ _ hb (factor_bounds _ hy.1 hy.2).1 (factor_bounds _ hy.1 hy.2).2
      hS.1 hS.2
  · rw [ec]
    exact ratio_bounds _ _ _ hc (factor_bounds _ hz.1 hz.2).1 (factor_bounds _ hz.1 hz.2).2
      hS.1 hS.2
  · rw [ed2]
    exact ratio_bounds _ _ _ hd (factor_bounds _ hw.1 hw.2).1 (factor_bounds _ hw.1 hw.2).2
      hS.1 hS.2

/-- C16 as stated fails: with working probabilities `0.1, 0.3, 0.3, 0.3` (positive,
of sum 1) and draws `0` for `a` and `0.9` for the others (all in `[0,1)`), the value
of `rmat_a` after the level differs from its value before by more than 10% of it. -/
theorem level_change_exceeds_tenth :
    (0 < (level_init (example_generator_skew 3 1) example_rng_skew).rmat_a ∧
      0 < (level_init (example_generator_skew 3 1) example_rng_skew).rmat_b ∧
      0 < (level_init (example_generator_skew 3 1) example_rng_skew).rmat_c ∧
      0 < (level_init (example_generator_skew 3 1) example_rng_skew).rmat_d ∧
      working_sum (level_init (example_generator_skew 3 1) example_rng_skew) = 1 ∧
      ∀ i : Nat, 0 ≤ example_rng_skew.stream i ∧ example_rng_skew.stream i < 1) ∧
    ¬ (|(level (level_init (example_generator_skew 3 1) example_rng_skew)).rmat_a
          - (level_init (example_generator_skew 3 1) example_rng_skew).rmat_a|
        < 1 / 10 * (level_init (example_generator_skew 3 1) example_rng_skew).rmat_a) := by
  refine ⟨⟨?_, ?_, ?_, ?_, ?_, ?_⟩, ?_⟩
  · norm_num [level_init, example_generator_skew]
  · norm_num [level_init, example_generator_skew]
  · norm_num [level_init, example_generator_skew]
  · norm_num [level_init, example_generator_skew]
  · norm_num [working_sum, level_init, example_generator_skew]
  · intro i
    simp only [example_rng_skew]
    split <;> norm_num
  · rw [abs_lt]
    norm_num [level, perturb, level_init, example_generator_skew, example_rng_skew, Rng.draw]

/-- C16 amended: at every level, for working probabilities that are positive and sum
to 1 and draws in `[0,1)`, in exact arithmetic, the multiplication by
`0.9 + 0.2 * draw` alone changes each working probability by at most 10% of its
value, and the value the next level uses, after the renormalisation, differs from
the value at the start of the level by less than 2/9 of it, lying strictly between
9/11 and 11/9 of it. -/
theorem level_change_bound (s : level_state α)
    (ha : 0 < s.rmat_a) (hb : 0 < s.rmat_b) (hc : 0 < s.rmat_c) (hd : 0 < s.rmat_d)
    (hsum : working_sum s = 1)
    (hx : 0 ≤ s.rng.stream (s.rng.pos + 1) ∧ s.rng.stream (s.rng.pos + 1) < 1)
    (hy : 0 ≤ s.rng.stream (s.rng.pos + 2) ∧ s.rng.stream (s.rng.pos + 2) < 1)
    (hz : 0 ≤ s.rng.stream (s.rng.pos + 3) ∧ s.rng.stream (s.rng.pos + 3) < 1)
    (hw : 0 ≤ s.rng.stream (s.rng.pos + 4) ∧ s.rng.stream (s.rng.pos + 4) < 1) :
    (|s.rmat_a * (0.9 + 0.2 * s.rng.stream (s.rng.pos + 1)) - s.rmat_a| ≤ 1 / 10 * s.rmat_a ∧
      |s.rmat_b * (0.9 + 0.2 * s.rng.stream (s.rng.pos + 2)) - s.rmat_b| ≤ 1 / 10 * s.rmat_b ∧
      |s.rmat_c * (0.9 + 0.2 * s.rng.stream (s.rng.pos + 3)) - s.rmat_c| ≤ 1 / 10 * s.rmat_c ∧
      |s.rmat_d * (0.9 + 0.2 * s.rng.stream (s.rng.pos + 4)) - s.rmat_d| ≤ 1 / 10 * s.rmat_d) ∧
    (|(level s).rmat_a - s.rmat_a| < 2 / 9 * s.rmat_a ∧
      9 / 11 * s.rmat_a < (level s).rmat_a ∧ (level s).rmat_a < 11 / 9 * s.rmat_a) ∧
    (|(level s).rmat_b - s.rmat_b| < 2 / 9 * s.rmat_b ∧
      9 / 11 * s.rmat_b < (level s).rmat_b ∧ (level s).rmat_b < 11 / 9 * s.rmat_b) ∧
    (|(level s).rmat_c - s.rmat_c| < 2 / 9 * s.rmat_c ∧
      9 / 11 * s.rmat_c < (level s).rmat_c ∧ (level s).rmat_c < 11 / 9 * s.rmat_c) ∧
    (|(level s).rmat_d - s.rmat_d| < 2 / 9 * s.rmat_d ∧
      9 / 11 * s.rmat_d < (level s).rmat_d ∧ (level s).rmat_d < 11 / 9 * s.rmat_d) := by
  have h9 : (0.9 : α) = 9 / 10 := scientific_constants.1
  have h2 : (0.2 : α) = 2 / 10 := scientific_constants.2
  obtain ⟨_, ea, eb, ec, ed⟩ := level_estimates s ha hb hc hd hsum hx hy hz hw
  have mult : ∀ p x : α, 0 < p → 0 ≤ x → x < 1 →
      |p * (0.9 + 0.2 * x) - p| ≤ 1 / 10 * p := by
    intro p x hp h0 h1
    rw [h9, h2, abs_le]
    have e : p * (9 / 10 + 2 / 10 * x) - p = p * (2 / 10 * x - 1 / 10) := by ring
    rw [e]
    have hpx : 0 ≤ p * x := mul_nonneg hp.le h0
    have hpx1 : p * x < p := mul_lt_of_lt_one_right hp h1
    constructor <;> linarith
  have after : ∀ p q : α, 9 / 11 * p < q → q < 11 / 9 * p → 0 < p →
      |q - p| < 2 / 9 * p ∧ 9 / 11 * p < q ∧ q < 11 / 9 * p := by
    intro p q hlo hhi hp
    refine ⟨?_, hlo, hhi⟩
    rw [abs_lt]
    constructor <;> linarith
  exact ⟨⟨mult _ _ ha hx.1 hx.2, mult _ _ hb hy.1 hy.2, mult _ _ hc hz.1 hz.2,
      mult _ _ hd hw.1 hw.2⟩,
    after _ _ ea.2.1 ea.2.2 ha, after _ _ eb.2.1 eb.2.2 hb, after _ _ ec.2.1 ec.2.2 hc,
    after _ _ ed.2.1 ed.2.2 hd⟩

theorem level_change_bound_witness :
    (|(level_init (example_generator false false 3 1) example_rng).rmat_a *
          (0.9 + 0.2 * example_rng.stream (example_rng.pos + 1))
          - (level_init (example_generator false false 3 1) example_rng).rmat_a|
        ≤ 1 / 10 * (level_init (example_generator false false 3 1) example_rng).rmat_a ∧
      |(level_init (example_generator false false 3 1) example_rng).rmat_b *
          (0.9 + 0.2 * example_rng.stream (example_rng.pos + 2))
          - (level_init (example_generator false false 3 1) example_rng).rmat_b|
        ≤ 1 / 10 * (level_init (example_generator false false 3 1) example_rng).rmat_b ∧
      |(level_init (example_generator false false 3 1) example_rng).rmat_c *
          (0.9 + 0.2 * example_rng.stream (example_rng.pos + 3))
          - (level_init (example_generator false false 3 1) example_rng).rmat_c|
        ≤ 1 / 10 * (level_init (example_generator false false 3 1) example_rng).rmat_c ∧
      |(level_init (example_generator false false 3 1) example_rng).rmat_d *
          (0.9 + 0.2 * example_rng.stream (example_rng.pos + 4))
          - (level_init (example_generator false false 3 1) example_rng).rmat_d|
        ≤ 1 / 10 * (level_init (example_generator false false 3 1) example_rng).rmat_d) ∧
    (|(level (level_init (example_generator false false 3 1) example_rng)).rmat_a
          - (level_init (example_generator false false 3 1) example_rng).rmat_a|
        < 2 / 9 * (level_init (example_generator false false 3 1) example_rng).rmat_a ∧
      9 / 11 * (level_init (example_generator false false 3 1) example_rng).rmat_a
        < (level (level_init (example_generator false false 3 1) example_rng)).rmat_a ∧
      (level (level_init (example_generator false false 3 1) example_rng)).rmat_a
        < 11 / 9 * (level_init (example_generator false false 3 1) example_rng).rmat_a) ∧
    (|(level (level_init (example_generator false false 3 1) example_rng)).rmat_b
          - (level_init (example_generator false false 3 1) example_rng).rmat_b|
        < 2 / 9 * (level_init (example_generator false false 3 1) example_rng).rmat_b ∧
      9 / 11 * (level_init (example_generator false false 3 1) example_rng).rmat_b
        < (level (level_init (example_generator false false 3 1) example_rng)).rmat_b ∧
      (level (level_init (example_generator false false 3 1) example_rng)).rmat_b
        < 11 / 9 * (level_init (example_generator false false 3 1) example_rng).rmat_b) ∧
    (|(level (level_init (example_generator false false 3 1) example_rng)).rmat_c
          - (level_init (example_generator false false 3 1) example_rng).rmat_c|
        < 2 / 9 * (level_init (example_generator false false 3 1) example_rng).rmat_c ∧
      9 / 11 * (level_init (example_generator false false 3 1) example_rng).rmat_c
        < (level (level_init (example_generator false false 3 1) example_rng)).rmat_c ∧
      (level (level_init (example_generator false false 3 1) example_rng)).rmat_c
        < 11 / 9 * (level_init (example_generator false false 3 1) example_rng).rmat_c) ∧
    (|(level (level_init (example_generator false false 3 1) example_rng)).rmat_d
          - (level_init (example_generator false false 3 1) example_rng).rmat_d|
        < 2 / 9 * (level_init (example_generator false false 3 1) example_rng).rmat_d ∧
      9 / 11 * (level_init (example_generator false false 3 1) example_rng).rmat_d
        < (level (level_init (example_generator false false 3 1) example_rng)).rmat_d ∧
      (level (level_init (example_generator false false 3 1) example_rng)).rmat_d
        < 11 / 9 * (level_init (example_generator false false 3 1) example_rng).rmat_d) :=
  level_change_bound (level_init (example_generator false false 3 1) example_rng)
    (by norm_num [level_init, example_generator])
    (by norm_num [level_init, example_generator])
    (by norm_num [level_init, example_generator])
    (by norm_num [level_init, example_generator])
    (by norm_num [working_sum, level_init, example_generator])
    (by norm_num [level_init, example_rng])
    (by norm_num [level_init, example_rng])
    (by norm_num [level_init, example_rng])
    (by norm_num [level_init, example_rng])

theorem levels_positive (s : level_state α)
    (ha : 0 < s.rmat_a) (hb : 0 < s.rmat_b) (hc : 0 < s.rmat_c) (hd : 0 < s.rmat_d)
    (hsum : working_sum s = 1)
    (hdraw : ∀ i : Nat, 0 ≤ s.rng.stream (s.rng.pos + i) ∧ s.rng.stream (s.rng.pos + i) < 1)
    (k : Nat) :
    0 < (levels k s).rmat_a ∧ 0 < (levels k s).rmat_b ∧ 0 < (levels k s).rmat_c ∧
      0 < (levels k s).rmat_d ∧ working_sum (levels k s) = 1 ∧
      9 / 10 ≤ norm_sum (levels k s) := by
  have draws : ∀ n j : Nat,
      0 ≤ (levels n s).rng.stream ((levels n s).rng.pos + j) ∧
        (levels n s).rng.stream ((levels n s).rng.pos + j) < 1 := by
    intro n j
    rw [levels_rng]
    simp only
    rw [Nat.add_assoc]
    exact hdraw (5 * n + j)
  have key : ∀ n : Nat, 0 < (levels n s).rmat_a ∧ 0 < (levels n s).rmat_b ∧
      0 < (levels n s).rmat_c ∧ 0 < (levels n s).rmat_d ∧ working_sum (levels n s) = 1 := by
    intro n
    induction n with
    | zero => exact ⟨ha, hb, hc, hd, hsum⟩
    | succ n ih =>
      obtain ⟨pa, pb, pc, pd, ps⟩ := ih
      obtain ⟨_, ea, eb, ec, ed⟩ := level_estimates (levels n s) pa pb pc pd ps
        (draws n 1) (draws n 2) (draws n 3) (draws n 4)
      rw [levels_succ]
      exact ⟨ea.1, eb.1, ec.1, ed.1, working_sum_level _⟩
  obtain ⟨pa, pb, pc, pd, ps⟩ := key k
  exact ⟨pa, pb, pc, pd, ps,
    (level_estimates (levels k s) pa pb pc pd ps
      (draws k 1) (draws k 2) (draws k 3) (draws k 4)).1.1⟩

/-- C18: in exact arithmetic, if the configured `a, b, c, d` are strictly positive
and sum to 1 and every draw lies in `[0,1)`, then at the start of every level (and
so at the end of the one before) the working `a, b, c, d` lie strictly between 0
and 1 and sum to 1, the normalising sum of the level is non-zero, and each quadrant
is selected by some draw of `[0,1)`: `0`, `a`, `a + b` and `a + b + c` select the
quadrants 00, 01, 10 and 11. -/
theorem working_probabilities_inside (g : rmat_edge_generator α) (rng : Rng α) (k : Nat)
    (ha : 0 < g.m_rmat_a) (hb : 0 < g.m_rmat_b) (hc : 0 < g.m_rmat_c) (hd : 0 < g.m_rmat_d)
    (hsum : g.m_rmat_a + g.m_rmat_b + g.m_rmat_c + g.m_rmat_d = 1)
    (hdraw : ∀ i : Nat, 0 ≤ rng.stream (rng.pos + i) ∧ rng.stream (rng.pos + i) < 1) :
    (0 < (levels k (level_init g rng)).rmat_a ∧ (levels k (level_init g rng)).rmat_a < 1) ∧
    (0 < (levels k (level_init g rng)).rmat_b ∧ (levels k (level_init g rng)).rmat_b < 1) ∧
    (0 < (levels k (level_init g rng)).rmat_c ∧ (levels k (level_init g rng)).rmat_c < 1) ∧
    (0 < (levels k (level_init g rng)).rmat_d ∧ (levels k (level_init g rng)).rmat_d < 1) ∧
    working_sum (levels k (level_init g rng)) = 1 ∧
    norm_sum (levels k (level_init g rng)) ≠ 0 ∧
    (levels k (level_init g rng)).rmat_a + (levels k (level_init g rng)).rmat_b
      + (levels k (level_init g rng)).rmat_c < 1 ∧
    select (levels k (level_init g rng)).rmat_a (levels k (level_init g rng)).rmat_b
      (levels k (level_init g rng)).rmat_c 0 = (false, false) ∧
    select (levels k (level_init g rng)).rmat_a (levels k (level_init g rng)).rmat_b
      (levels k (level_init g rng)).rmat_c (levels k (level_init g rng)).rmat_a
        = (false, true) ∧
    select (levels k (level_init g rng)).rmat_a (levels k (level_init g rng)).rmat_b
      (levels k (level_init g rng)).rmat_c
      ((levels k (level_init g rng)).rmat_a + (levels k (level_init g rng)).rmat_b)
        = (true, false) ∧
    select (levels k (level_init g rng)).rmat_a (levels k (level_init g rng)).rmat_b
      (levels k (level_init g rng)).rmat_c
      ((levels k (level_init g rng)).rmat_a + (levels k (level_init g rng)).rmat_b
        + (levels k (level_init g rng)).rmat_c) = (true, true) := by
  obtain ⟨pa, pb, pc, pd, ps, pS⟩ :=
    levels_positive (level_init g rng) ha hb hc hd hsum hdraw k
  have ps2 := ps
  simp only [working_sum] at ps2
  refine ⟨⟨pa, by linarith⟩, ⟨pb, by linarith⟩, ⟨pc, by linarith⟩, ⟨pd, by linarith⟩, ps,
    ?_, by linarith, ?_, ?_, ?_, ?_⟩
  · intro h0
    rw [h0] at pS
    norm_num at pS
  · exact (select_cases _ _ _ _).2.1.mpr pa
  · exact (select_cases _ _ _ _).2.2.1.mpr ⟨le_refl _, by linarith⟩
  · exact (select_cases _ _ _ _).2.2.2.1.mpr ⟨by linarith, le_refl _, by linarith⟩
  · exact (select_cases _ _ _ _).2.2.2.2.mpr ⟨by linarith, by linarith, le_refl _⟩

theorem working_probabilities_inside_witness :
    (0 < (levels 2 (level_init (example_generator false false 3 1) example_rng)).rmat_a ∧
        (levels 2 (level_init (example_generator false false 3 1) example_rng)).rmat_a < 1) ∧
    (0 < (levels 2 (level_init (example_generator false false 3 1) example_rng)).rmat_b ∧
        (levels 2 (level_init (example_generator false false 3 1) example_rng)).rmat_b < 1) ∧
    (0 < (levels 2 (level_init (example_generator false false 3 1) example_rng)).rmat_c ∧
        (levels 2 (level_init (example_generator false false 3 1) example_rng)).rmat_c < 1) ∧
    (0 < (levels 2 (level_init (example_generator false false 3 1) example_rng)).rmat_d ∧
        (levels 2 (level_init (example_generator false false 3 1) example_rng)).rmat_d < 1) ∧
    working_sum (levels 2 (level_init (example_generator false false 3 1) example_rng)) = 1 ∧
    norm_sum (levels 2 (level_init (example_generator false false 3 1) example_rng)) ≠ 0 ∧
    (levels 2 (level_init (example_generator false false 3 1) example_rng)).rmat_a +
        (levels 2 (level_init (example_generator false false 3 1) example_rng)).rmat_b
      + (levels 2 (level_init (example_generator false false 3 1) example_rng)).rmat_c < 1 ∧
    select (levels 2 (level_init (example_generator false false 3 1) example_rng)).rmat_a
        (levels 2 (level_init (example_generator false false 3 1) example_rng)).rmat_b
      (levels 2 (level_init (example_generator false false 3 1) example_rng)).rmat_c 0 = (false, false) ∧
    select (levels 2 (level_init (example_generator false false 3 1) example_rng)).rmat_a
        (levels 2 (level_init (example_generator false false 3 1) example_rng)).rmat_b
      (levels 2 (level_init (example_generator false false 3 1) example_rng)).rmat_c
          (levels 2 (level_init (example_generator false false 3 1) example_rng)).rmat_a
        = (false, true) ∧
    select (levels 2 (level_init (example_generator false false 3 1) example_rng)).rmat_a
        (levels 2 (level_init (example_generator false false 3 1) example_rng)).rmat_b
      (levels 2 (level_init (example_generator false false 3 1) example_rng)).rmat_c
      ((levels 2 (level_init (example_generator false false 3 1) example_rng)).rmat_a +
          (levels 2 (level_init (example_generator false false 3 1) example_rng)).rmat_b)
        = (true, false) ∧
    select (levels 2 (level_init (example_generator false false 3 1) example_rng)).rmat_a
        (levels 2 (level_init (example_generator false false 3 1) example_rng)).rmat_b
      (levels 2 (level_init (example_generator false false 3 1) example_rng)).rmat_c
      ((levels 2 (level_init (example_generator false false 3 1) example_rng)).rmat_a +
          (levels 2 (level_init (example_generator false false 3 1) example_rng)).rmat_b
        + (levels 2 (level_init (example_generator false false 3 1) example_rng)).rmat_c) = (true, true) :=
  working_probabilities_inside (example_generator false false 3 1) example_rng 2
    (by norm_num [example_generator]) (by norm_num [example_generator])
    (by norm_num [example_generator]) (by norm_num [example_generator])
    (by norm_num [example_generator])
    (by
      intro i
      have h : (37 * (0 + i) + 11) % 100 < 100 := Nat.mod_lt _ (by decide)
      simp only [example_rng]
      constructor
      · positivity
      · rw [div_lt_one (by norm_num)]
        exact_mod_cast h)

end Perturbation

end Rmat
